import Mathlib

/-!
Shallow embedding of the arena-shooter simulation engine
(src/game/World.ts, src/game/Entities.ts, src/game/Engine.ts).

Modelling conventions:
  * JavaScript numbers are modelled as real numbers (`ℝ`); ammunition
    counters and tile coordinates, which only ever hold integers, are
    modelled as `ℤ`.
  * Object identity (TypeScript `===` on entity references, used for
    damage attribution and self-hit exemption) is modelled by stable
    entity references (`EntRef`): the single controlled combatant is
    `EntRef.player`, and each autonomous combatant carries a unique
    numeric `pid`.
  * `Math.random()` draws are modelled as oracle functions passed in as
    parameters (one function per call site, indexed by the loop
    variables of that site); every assignment of values corresponds to
    a possible outcome of the random source.
  * The event callbacks `onGameStateChange` / `onWinner` are modelled by
    appending to an event log (`events`).  The `onWinner` payload
    strings are modelled by the two-element type `WinnerMsg`
    (`player` for the victory payload, `gameOver` for the defeat one).
  * Rendering, audio, particles (`Particle`, `spawnBlood`,
    `spawnDashParticles`), the camera/canvas geometry needed only for
    drawing, and DOM event listeners are outside the model: they never
    feed back into simulation state.
  * Unbounded `while` loops (the breadth-first searches) are modelled
    with an explicit fuel parameter large enough to cover the loop
    bound implied by the finite grid.
-/

/-- Tile kinds of the grid map (`TileType` in World.ts;
`CITY_HOUSE_FLOOR` is the special floor of the central city house). -/
inductive TileType where
  | floor
  | wall
  | cityHouseFloor
  | indestructible
  deriving DecidableEq, Repr

/-- Tile side length in world units (`TILE_SIZE = 40`). -/
def TILE_SIZE : ℝ := 40

/-- The five weapon kinds (`WeaponType` in Entities.ts). -/
inductive WeaponType where
  | smg
  | assaultRifle
  | shotgun
  | sniper
  | rocketLauncher
  deriving DecidableEq, Repr

/-- Static per-weapon data (`WeaponStats`); the render-only `color`
field is omitted. -/
structure WeaponStats where
  fireRate : ℝ
  damage : ℝ
  speed : ℝ
  spread : ℝ
  count : ℕ
  isRocket : Bool
  magSize : ℤ
  reloadTime : ℝ
  wallDamage : ℝ

/-- The weapon table (`WEAPONS` in Entities.ts). -/
def WEAPONS : WeaponType → WeaponStats
  | .smg =>
      { fireRate := 0.08, damage := 12, speed := 850, spread := 0.15, count := 1,
        isRocket := false, magSize := 25, reloadTime := 0.75, wallDamage := 0 }
  | .assaultRifle =>
      { fireRate := 0.1, damage := 15, speed := 900, spread := 0.1, count := 1,
        isRocket := false, magSize := 20, reloadTime := 1.0, wallDamage := 1 }
  | .shotgun =>
      { fireRate := 1.0, damage := 20, speed := 600, spread := 0.3, count := 5,
        isRocket := false, magSize := 8, reloadTime := 1.5, wallDamage := 2 }
  | .sniper =>
      { fireRate := 1.5, damage := 80, speed := 1500, spread := 0.0, count := 1,
        isRocket := false, magSize := 5, reloadTime := 2.0, wallDamage := 5 }
  | .rocketLauncher =>
      { fireRate := 2.0, damage := 100, speed := 500, spread := 0.05, count := 1,
        isRocket := true, magSize := 3, reloadTime := 1.75, wallDamage := 5 }

/-- A stable reference to a combatant, standing in for TypeScript object
identity: the controlled combatant, or an autonomous one with its
persistent id. -/
inductive EntRef where
  | player
  | npc (pid : ℕ)
  deriving DecidableEq, Repr

/-- Match phase (`GameState` in Engine.ts: COUNTDOWN/PLAYING/GAME_OVER). -/
inductive GState where
  | countdown
  | playing
  | gameOver
  deriving DecidableEq, Repr

/-- Payload of the `onWinner` callback: `player` models the victory
payload, `gameOver` the defeat payload. -/
inductive WinnerMsg where
  | player
  | gameOver
  deriving DecidableEq, Repr

/-- One emission of an engine event callback. -/
inductive GEvent where
  | stateChange (s : GState)
  | winner (w : WinnerMsg)
  deriving DecidableEq, Repr

/-- Behaviour state tag of an autonomous combatant (`aiState`). -/
inductive AIState where
  | idle
  | searching
  | fighting
  deriving DecidableEq, Repr

/-- Snapshot of the `Input` class as read during one tick: key states,
mouse state and the optional virtual joystick vector. -/
structure InputState where
  keyW : Bool
  keyS : Bool
  keyA : Bool
  keyD : Bool
  keyR : Bool
  keySpace : Bool
  keyQ : Bool
  mouse : ℝ × ℝ
  mouseDown : Bool
  joystick : Option (ℝ × ℝ)

/-- `Math.atan2 y x` (value only matters up to being some angle; the
claims never depend on it). -/
noncomputable def atan2 (y x : ℝ) : ℝ :=
  if 0 < x then Real.arctan (y / x)
  else if x < 0 then
    (if 0 ≤ y then Real.arctan (y / x) + Real.pi else Real.arctan (y / x) - Real.pi)
  else if 0 < y then Real.pi / 2
  else if y < 0 then -(Real.pi / 2)
  else 0

/-- Point-update of a two-argument function (modelling an in-place write
to one cell of a 2-d array). -/
def upd2 {α : Type} (f : ℤ → ℤ → α) (x y : ℤ) (v : α) : ℤ → ℤ → α :=
  fun a b => if a = x ∧ b = y then v else f a b

/-- The grid map (`World` class).  `tiles` and `wallHealth` are the two
parallel matrices; the render-only `cityHouseRect` helper is omitted. -/
structure World where
  width : ℤ
  height : ℤ
  tiles : ℤ → ℤ → TileType
  wallHealth : ℤ → ℤ → ℝ

/-- `World.getTile`: out-of-bounds queries return the solid Wall tile. -/
def World.getTile (w : World) (x y : ℤ) : TileType :=
  if x < 0 ∨ x ≥ w.width ∨ y < 0 ∨ y ≥ w.height then .wall
  else w.tiles x y

/-- `World.damageWall`: no-op unless the tile is exactly a destructible
Wall; decrements durability and converts to Floor at durability ≤ 0.
(`noncomputable` here and below: durability and damage are real-valued,
and comparisons on `ℝ` are classical; all concrete evaluations in the
theorems go through `simp`/`norm_num` instead of `decide`.) -/
noncomputable def World.damageWall (w : World) (x y : ℤ) (amount : ℝ) : World :=
  if x < 0 ∨ x ≥ w.width ∨ y < 0 ∨ y ≥ w.height then w
  else if w.tiles x y ≠ .wall then w
  else
    let hp := w.wallHealth x y - amount
    let w2 : World := { w with wallHealth := upd2 w.wallHealth x y hp }
    if hp ≤ 0 then { w2 with tiles := upd2 w2.tiles x y .floor } else w2

/-- Result of a circle-vs-grid collision query. -/
structure Collision where
  push : ℝ × ℝ
  normal : ℝ × ℝ

/-- The 3×3 tile-offset neighbourhood scanned by `checkCollision`,
in the source's loop order (x outer, y inner). -/
def collOffsets : List (ℤ × ℤ) :=
  [(-1,-1),(-1,0),(-1,1),(0,-1),(0,0),(0,1),(1,-1),(1,0),(1,1)]

/-- `World.checkCollision`: circle-vs-axis-aligned-box test against every
solid tile in the 3×3 neighbourhood, accumulating a combined push-out
vector and summed contact normal, which is renormalised at the end. -/
noncomputable def World.checkCollision (w : World) (pos : ℝ × ℝ) (radius : ℝ) :
    Option Collision :=
  let tileX : ℤ := ⌊pos.1 / TILE_SIZE⌋
  let tileY : ℤ := ⌊pos.2 / TILE_SIZE⌋
  let acc := collOffsets.foldl
    (fun (acc : ℝ × ℝ × ℝ × ℝ × Bool) (d : ℤ × ℤ) =>
      let x := tileX + d.1
      let y := tileY + d.2
      let tile := w.getTile x y
      if tile = .wall ∨ tile = .indestructible then
        let closestX := max ((x : ℝ) * TILE_SIZE) (min pos.1 ((x : ℝ) * TILE_SIZE + TILE_SIZE))
        let closestY := max ((y : ℝ) * TILE_SIZE) (min pos.2 ((y : ℝ) * TILE_SIZE + TILE_SIZE))
        let dx := pos.1 - closestX
        let dy := pos.2 - closestY
        let distance := Real.sqrt (dx * dx + dy * dy)
        if distance < radius then
          let overlap := radius - distance
          if distance > 0 then
            let nx := dx / distance
            let ny := dy / distance
            (acc.1 + nx * overlap, acc.2.1 + ny * overlap,
             acc.2.2.1 + nx, acc.2.2.2.1 + ny, true)
          else
            (acc.1 + overlap, acc.2.1, acc.2.2.1, acc.2.2.2.1, true)
        else acc
      else acc)
    ((0 : ℝ), (0 : ℝ), (0 : ℝ), (0 : ℝ), false)
  if acc.2.2.2.2 then
    let len := Real.sqrt (acc.2.2.1 * acc.2.2.1 + acc.2.2.2.1 * acc.2.2.2.1)
    let nx := if len > 0 then acc.2.2.1 / len else acc.2.2.1
    let ny := if len > 0 then acc.2.2.2.1 / len else acc.2.2.2.1
    some { push := (acc.1, acc.2.1), normal := (nx, ny) }
  else none

/-- World-space centre of a tile (`x * TILE_SIZE + TILE_SIZE / 2`). -/
noncomputable def centerOf (t : ℤ × ℤ) : ℝ × ℝ :=
  ((t.1 : ℝ) * TILE_SIZE + TILE_SIZE / 2, (t.2 : ℝ) * TILE_SIZE + TILE_SIZE / 2)

/-- Lookup in the `cameFrom` record (keyed by tile): `none` means the
key is absent, `some p` that the key maps to parent `p` (`some none`
marks the start tile, whose stored parent is null). -/
def cfLookup (cf : List ((ℤ × ℤ) × Option (ℤ × ℤ))) (t : ℤ × ℤ) :
    Option (Option (ℤ × ℤ)) :=
  (cf.find? (fun e => e.1 = t)).map (fun e => e.2)

/-- The four orthogonal neighbours, in the source's order
(+x, −x, +y, −y). -/
def pathNeighbors (t : ℤ × ℤ) : List (ℤ × ℤ) :=
  [(t.1 + 1, t.2), (t.1 - 1, t.2), (t.1, t.2 + 1), (t.1, t.2 - 1)]

/-- Path reconstruction (`while (curr) { path.push(...); curr = cameFrom[key] }`):
follows parent links from the popped goal back to the start tile, whose
stored parent is null.  Fuel bounds the walk; it is chosen larger than
the chain can be (chains step to strictly earlier `cameFrom` entries). -/
def reconstruct (cf : List ((ℤ × ℤ) × Option (ℤ × ℤ))) :
    ℕ → (ℤ × ℤ) → List (ℤ × ℤ)
  | 0, _ => []
  | fuel + 1, cur =>
    cur :: (match cfLookup cf cur with
            | some (some p) => reconstruct cf fuel p
            | _ => [])

/-- The BFS `while (queue.length > 0)` loop of `World.findPath`:
shift the front tile; if it is the goal, reconstruct and reverse the
path; otherwise enqueue each in-bounds, non-wall neighbour not yet in
`cameFrom`.  Returns the goal-to-start tile chain reversed (start
first), or `none` when the queue empties. -/
def bfsLoop (w : World) (endT : ℤ × ℤ) :
    ℕ → List (ℤ × ℤ) → List ((ℤ × ℤ) × Option (ℤ × ℤ)) → Option (List (ℤ × ℤ))
  | 0, _, _ => none
  | _ + 1, [], _ => none
  | fuel + 1, current :: rest, cf =>
    if current = endT then
      some ((reconstruct cf (cf.length + 1) current).reverse)
    else
      let step := (pathNeighbors current).foldl
        (fun (acc : List (ℤ × ℤ) × List ((ℤ × ℤ) × Option (ℤ × ℤ))) n =>
          if 0 ≤ n.1 ∧ n.1 < w.width ∧ 0 ≤ n.2 ∧ n.2 < w.height then
            if w.tiles n.1 n.2 ≠ .wall ∧ w.tiles n.1 n.2 ≠ .indestructible then
              if cfLookup acc.2 n = none then
                (acc.1 ++ [n], acc.2 ++ [(n, some current)])
              else acc
            else acc
          else acc)
        (rest, cf)
      bfsLoop w endT fuel step.1 step.2

/-- `World.findPath`: convert both world points to tiles, run the BFS,
and map the resulting tile chain to tile centres.  (The source pushes
centres and then reverses; reversing the tile list before mapping to
centres yields the same list.)  The fuel `width*height + 2` exceeds the
iteration count of the source's loop, which pops one entry per
iteration and enqueues each tile at most once. -/
noncomputable def World.findPath (w : World) (start endP : ℝ × ℝ) :
    Option (List (ℝ × ℝ)) :=
  let startTile : ℤ × ℤ := (⌊start.1 / TILE_SIZE⌋, ⌊start.2 / TILE_SIZE⌋)
  let endTile : ℤ × ℤ := (⌊endP.1 / TILE_SIZE⌋, ⌊endP.2 / TILE_SIZE⌋)
  if startTile = endTile then some []
  else
    match bfsLoop w endTile ((w.width * w.height).toNat + 2)
        [startTile] [(startTile, none)] with
    | some tiles => some (tiles.map centerOf)
    | none => none

/-- Step 1 of `generateKowloonMap`: noise fill.  `noise x y = true`
models `Math.random() < 0.43` for that tile; the border is forced to
IndestructibleWall. -/
def fillStage (w h : ℤ) (noise : ℤ → ℤ → Bool) : ℤ → ℤ → TileType :=
  fun x y =>
    if x = 0 ∨ x = w - 1 ∨ y = 0 ∨ y = h - 1 then .indestructible
    else if noise x y then .wall else .floor

/-- Is a tile counted as a wall by the smoothing automaton? -/
def wallish (t : TileType) : Bool :=
  t = .wall || t = .indestructible

/-- The 8 Moore-neighbourhood offsets. -/
def mooreOffsets : List (ℤ × ℤ) :=
  [(-1,-1),(-1,0),(-1,1),(0,-1),(0,1),(1,-1),(1,0),(1,1)]

/-- Number of Wall/IndestructibleWall Moore neighbours. -/
def neighborCount (g : ℤ → ℤ → TileType) (x y : ℤ) : ℕ :=
  (mooreOffsets.filter (fun d => wallish (g (x + d.1) (y + d.2)))).length

/-- One pass of `smoothMap`: computed pointwise from the previous grid
(the source writes into a fresh copy), interior tiles only. -/
def smoothStage (w h : ℤ) (g : ℤ → ℤ → TileType) : ℤ → ℤ → TileType :=
  fun x y =>
    if 0 < x ∧ x < w - 1 ∧ 0 < y ∧ y < h - 1 then
      let n := neighborCount g x y
      if n > 4 then .wall else if n < 4 then .floor else g x y
    else g x y

/-- `n` passes of the smoothing automaton (the source runs 5). -/
def smoothN (w h : ℤ) : ℕ → (ℤ → ℤ → TileType) → (ℤ → ℤ → TileType)
  | 0, g => g
  | n + 1, g => smoothN w h n (smoothStage w h g)

/-- Step 2.5: convert some interior Wall tiles to IndestructibleWall.
`ind x y = true` models that tile's `Math.random() < 0.15` draw. -/
def sprinkleStage (w h : ℤ) (ind : ℤ → ℤ → Bool) (g : ℤ → ℤ → TileType) :
    ℤ → ℤ → TileType :=
  fun x y =>
    if 0 < x ∧ x < w - 1 ∧ 0 < y ∧ y < h - 1 ∧ g x y = .wall ∧ ind x y then
      .indestructible
    else g x y

/-- The four orthogonal directions in the widening pass's order. -/
def widenDirs : List (ℤ × ℤ) := [(1,0),(-1,0),(0,1),(0,-1)]

/-- Loop order of the widening pass: x outer from 2 to w−3, y inner. -/
def widenCells (w h : ℤ) : List (ℤ × ℤ) :=
  ((List.range (w - 4).toNat).map (fun i => (i : ℤ) + 2)).flatMap
    (fun x => ((List.range (h - 4).toNat).map (fun j => (j : ℤ) + 2)).map
      (fun y => (x, y)))

/-- Body of the widening pass at one cell: a Floor tile with fewer than
2 orthogonal Floor neighbours gets one randomly chosen orthogonal Wall
neighbour converted to Floor.  Mutations are visible to later cells, so
the pass is a fold, not pointwise. -/
def widenStep (dirR : ℤ → ℤ → Fin 4) (g : ℤ → ℤ → TileType) (c : ℤ × ℤ) :
    ℤ → ℤ → TileType :=
  if g c.1 c.2 = .floor then
    let floorNeighbors :=
      (widenDirs.filter (fun d => g (c.1 + d.1) (c.2 + d.2) = .floor)).length
    if floorNeighbors < 2 then
      let d := widenDirs.getD (dirR c.1 c.2) (1, 0)
      if g (c.1 + d.1) (c.2 + d.2) = .wall then
        upd2 g (c.1 + d.1) (c.2 + d.2) .floor
      else g
    else g
  else g

/-- Step 3: the alley-widening pass. -/
def widenStage (w h : ℤ) (dirR : ℤ → ℤ → Fin 4) (g : ℤ → ℤ → TileType) :
    ℤ → ℤ → TileType :=
  (widenCells w h).foldl (fun g c => widenStep dirR g c) g

/-- Step 3b: carve the open city-centre square of SpecialFloor
(centre ± 5, interior tiles only). -/
def cityStage (w h : ℤ) (g : ℤ → ℤ → TileType) : ℤ → ℤ → TileType :=
  fun x y =>
    if w / 2 - 5 ≤ x ∧ x ≤ w / 2 + 5 ∧ h / 2 - 5 ≤ y ∧ y ≤ h / 2 + 5 ∧
        0 < x ∧ x < w - 1 ∧ 0 < y ∧ y < h - 1 then
      .cityHouseFloor
    else g x y

/-- Direction order of the connectivity flood fill. -/
def floodDirs : List (ℤ × ℤ) := [(0,1),(0,-1),(1,0),(-1,0)]

/-- The `while (queue.length > 0)` loop of `ensureConnectivity`'s
breadth-first flood fill; returns the visited set. -/
def floodLoop (w h : ℤ) (g : ℤ → ℤ → TileType) :
    ℕ → List (ℤ × ℤ) → List (ℤ × ℤ) → List (ℤ × ℤ)
  | 0, _, vis => vis
  | _ + 1, [], vis => vis
  | fuel + 1, p :: rest, vis =>
    let step := floodDirs.foldl
      (fun (acc : List (ℤ × ℤ) × List (ℤ × ℤ)) d =>
        let n := (p.1 + d.1, p.2 + d.2)
        if 0 < n.1 ∧ n.1 < w - 1 ∧ 0 < n.2 ∧ n.2 < h - 1 then
          if ¬ (n ∈ acc.2) ∧ g n.1 n.2 ≠ .wall ∧ g n.1 n.2 ≠ .indestructible then
            (acc.1 ++ [n], acc.2 ++ [n])
          else acc
        else acc)
      (rest, vis)
    floodLoop w h g fuel step.1 step.2

/-- The visited set of the connectivity flood fill from the map centre. -/
def floodVisited (w h : ℤ) (g : ℤ → ℤ → TileType) : List (ℤ × ℤ) :=
  floodLoop w h g ((w * h).toNat + 2) [(w / 2, h / 2)] [(w / 2, h / 2)]

/-- Seal isolated pockets: any interior Floor tile the flood fill did
not reach becomes Wall. -/
def sealStage (w h : ℤ) (vis : List (ℤ × ℤ)) (g : ℤ → ℤ → TileType) :
    ℤ → ℤ → TileType :=
  fun x y =>
    if 0 < x ∧ x < w - 1 ∧ 0 < y ∧ y < h - 1 ∧ g x y = .floor ∧ ¬ ((x, y) ∈ vis) then
      .wall
    else g x y

/-- The L-shaped corridor carve from the safe-spawn coordinate (5,5) to
the centre: converts Wall tiles (and only Wall tiles — notably not
IndestructibleWall) to Floor along y = 5 up to the centre column, then
along that column up to the centre row. -/
def corridorCarve (w h : ℤ) (g : ℤ → ℤ → TileType) : ℤ → ℤ → TileType :=
  fun x y =>
    if y = 5 ∧ 5 ≤ x ∧ x < w / 2 ∧ g x y = .wall then .floor
    else if x = max 5 (w / 2) ∧ 5 ≤ y ∧ y < h / 2 ∧ g x y = .wall then .floor
    else g x y

/-- Force-clear the 3×3 safe-spawn room around (5,5) to Floor. -/
def roomStage (g : ℤ → ℤ → TileType) : ℤ → ℤ → TileType :=
  fun x y => if 4 ≤ x ∧ x ≤ 6 ∧ 4 ≤ y ∧ y ≤ 6 then .floor else g x y

/-- The full tile-grid generation pipeline of `generateKowloonMap`
followed by `ensureConnectivity`, parameterised by the random draws. -/
def genTiles (w h : ℤ) (noise ind : ℤ → ℤ → Bool) (dirR : ℤ → ℤ → Fin 4) :
    ℤ → ℤ → TileType :=
  let g0 := fillStage w h noise
  let g1 := smoothN w h 5 g0
  let g2 := sprinkleStage w h ind g1
  let g3 := widenStage w h dirR g2
  let g4 := cityStage w h g3
  let g5 := sealStage w h (floodVisited w h g4) g4
  let g6 := corridorCarve w h g5
  roomStage g6

/-- A freshly generated `World` (the `World` constructor). -/
def generateWorld (w h : ℤ) (noise ind : ℤ → ℤ → Bool) (dirR : ℤ → ℤ → Fin 4) :
    World :=
  { width := w, height := h, tiles := genTiles w h noise ind dirR,
    wallHealth := fun _ _ => 100 }

/-- A weapon pickup (`Loot`). -/
structure Loot where
  position : ℝ × ℝ
  weapon : WeaponType
  radius : ℝ := 15
  active : Bool := true

/-- A health potion pickup (`Potion`). -/
structure Potion where
  position : ℝ × ℝ
  radius : ℝ := 15
  active : Bool := true

/-- A projectile (`Bullet`). -/
structure Bullet where
  position : ℝ × ℝ
  velocity : ℝ × ℝ
  radius : ℝ
  active : Bool
  lifeTime : ℝ
  damage : ℝ
  isRocket : Bool
  owner : Option EntRef

/-- The `Bullet` constructor: velocity from angle and weapon speed;
rockets get the larger radius 6. -/
noncomputable def mkBullet (x y angle : ℝ) (stats : WeaponStats)
    (owner : Option EntRef) : Bullet :=
  { position := (x, y),
    velocity := (Real.cos angle * stats.speed, Real.sin angle * stats.speed),
    radius := if stats.isRocket then 6 else 3,
    active := true,
    lifeTime := 2.0,
    damage := stats.damage,
    isRocket := stats.isRocket,
    owner := owner }

/-- `Bullet.update`: advance by velocity, expire after 2 s of flight. -/
noncomputable def Bullet.update (b : Bullet) (dt : ℝ) : Bullet :=
  let b := { b with position := (b.position.1 + b.velocity.1 * dt,
                                 b.position.2 + b.velocity.2 * dt),
                    lifeTime := b.lifeTime - dt }
  if b.lifeTime ≤ 0 then { b with active := false } else b

/-- An expanding explosion volume (`Explosion`). -/
structure Explosion where
  position : ℝ × ℝ
  radius : ℝ := 10
  maxRadius : ℝ := 50
  duration : ℝ := 0.5
  timeElapsed : ℝ := 0
  active : Bool := true
  owner : Option EntRef := none

/-- The `Explosion` constructor. -/
def mkExplosion (x y : ℝ) (owner : Option EntRef) : Explosion :=
  { position := (x, y), owner := owner }

/-- `Explosion.update`: accumulate elapsed time, deactivate at the end
of the duration, otherwise grow the visual radius along the sine
easing curve. -/
noncomputable def Explosion.update (e : Explosion) (dt : ℝ) : Explosion :=
  let e := { e with timeElapsed := e.timeElapsed + dt }
  if e.timeElapsed ≥ e.duration then { e with active := false }
  else
    { e with radius := 10 + (e.maxRadius - 10) *
        Real.sin (e.timeElapsed / e.duration * Real.pi) }

/-- The combatant model (`Player` class), shared by the controlled
combatant and autonomous opponents.  The unused `target` field and the
render-only bookkeeping are omitted; `pid` realises object identity. -/
structure Player where
  pid : ℕ
  position : ℝ × ℝ
  velocity : ℝ × ℝ := (0, 0)
  rotation : ℝ := 0
  radius : ℝ := 20
  health : ℝ := 100
  maxHealth : ℝ := 100
  isDead : Bool := false
  siphoned : Bool := false
  weapon : Option WeaponType := none
  dropRequested : Bool := false
  lastShotTime : ℝ := 0
  currentAmmo : ℤ := 0
  isReloading : Bool := false
  reloadTimer : ℝ := 0
  maxAmmo : ℤ := 0
  shield : ℝ := 0
  maxShield : ℝ := 50
  lastDamageTime : ℝ := 0
  dashCooldown : ℝ := 3.0
  lastDashTime : ℝ := -10
  isDashing : Bool := false
  dashDuration : ℝ := 0.2
  dashTimer : ℝ := 0
  isNPC : Bool := false
  aiState : AIState := .idle
  path : List (ℝ × ℝ) := []
  pathTimer : ℝ := 0
  weaponPickupTime : ℝ := 0
  hasHalo : Bool := false

/-- The `Player` constructor (with a model-level stable id). -/
def mkPlayer (pid : ℕ) (x y : ℝ) (isNPC : Bool) : Player :=
  { pid := pid, position := (x, y), isNPC := isNPC }

/-- The `EntRef` designating this combatant (object identity). -/
def Player.ref (p : Player) : EntRef :=
  if p.isNPC then .npc p.pid else .player

/-- `Player.reload`: no-op if unarmed, already reloading, or the
magazine is full; otherwise start the reload timer. -/
def Player.reload (p : Player) : Player :=
  match p.weapon with
  | none => p
  | some w =>
    if p.isReloading ∨ p.currentAmmo = p.maxAmmo then p
    else { p with isReloading := true, reloadTimer := (WEAPONS w).reloadTime }

/-- `Player.shoot` (`now` in milliseconds, divided by 1000 as at the
call site `performance.now() / 1000`): fails silently while reloading
or unarmed; with the fire interval elapsed, an empty magazine triggers
a reload, otherwise ammo is decremented and `count` pellets are
spawned with random spread (`rands i` is pellet `i`'s
`Math.random()` draw). -/
noncomputable def Player.shoot (p : Player) (now : ℝ) (spreadMult : ℝ)
    (rands : ℕ → ℝ) : Player × Option (List Bullet) :=
  match p.weapon with
  | none => (p, none)
  | some w =>
    if p.isReloading then (p, none)
    else if now / 1000 - p.lastShotTime ≥ (WEAPONS w).fireRate then
      if p.currentAmmo ≤ 0 then (p.reload, none)
      else
        let p2 := { p with lastShotTime := now / 1000,
                           currentAmmo := p.currentAmmo - 1 }
        let stats := WEAPONS w
        let bullets := (List.range stats.count).map (fun i =>
          let angle := p2.rotation + (rands i - 0.5) * stats.spread * spreadMult
          mkBullet (p2.position.1 + Real.cos p2.rotation * 30)
            (p2.position.2 + Real.sin p2.rotation * 30) angle stats
            (some p2.ref))
        (p2, some bullets)
    else (p, none)

/-- `Player.dash`: succeeds only off cooldown and when not already
dashing; sets velocity to 1000 in the movement (or facing) direction
for the dash duration. -/
noncomputable def Player.dash (p : Player) (now : ℝ) : Player × Bool :=
  if now / 1000 - p.lastDashTime ≥ p.dashCooldown ∧ ¬ p.isDashing then
    let d : ℝ × ℝ :=
      if p.velocity.1 ≠ 0 ∨ p.velocity.2 ≠ 0 then p.velocity
      else (Real.cos p.rotation, Real.sin p.rotation)
    let len := Real.sqrt (d.1 * d.1 + d.2 * d.2)
    let d := if len > 0 then (d.1 / len, d.2 / len) else d
    ({ p with isDashing := true, dashTimer := p.dashDuration,
              lastDashTime := now / 1000,
              velocity := (d.1 * 1000, d.2 * 1000) }, true)
  else (p, false)

/-- The reload-completion section of `Player.update`: count the timer
down and refill the magazine when it expires. -/
noncomputable def Player.updateReload (p : Player) (dt : ℝ) : Player :=
  if p.isReloading then
    let t := p.reloadTimer - dt
    if t ≤ 0 then
      { p with reloadTimer := t, isReloading := false, currentAmmo := p.maxAmmo }
    else { p with reloadTimer := t }
  else p

/-- The dash-timing / input-movement / aiming section of
`Player.update`: while dashing, count the dash down (zeroing velocity
at its end); otherwise, for the controlled combatant, derive velocity
from keys or joystick (keyboard input normalised), scale by the
armed/unarmed speed, and aim via joystick direction or mouse. -/
noncomputable def Player.updateMove (p : Player) (dt : ℝ)
    (input : Option InputState) (camera : Option (ℝ × ℝ)) : Player :=
  if p.isDashing then
    let t := p.dashTimer - dt
    if t ≤ 0 then { p with dashTimer := t, isDashing := false, velocity := (0, 0) }
    else { p with dashTimer := t }
  else
    match input with
    | some inp =>
      if ¬ p.isNPC then
        let vx : ℝ := if inp.keyD then 1 else if inp.keyA then -1 else 0
        let vy : ℝ := if inp.keyS then 1 else if inp.keyW then -1 else 0
        let v : ℝ × ℝ :=
          match inp.joystick with
          | some js => (js.1, -js.2)
          | none =>
            if vx ≠ 0 ∨ vy ≠ 0 then
              let len := Real.sqrt (vx * vx + vy * vy)
              (vx / len, vy / len)
            else (vx, vy)
        let speed : ℝ := if p.weapon.isSome then 300 else 400
        let p := { p with velocity := (v.1 * speed, v.2 * speed) }
        match camera with
        | some cam =>
          match inp.joystick with
          | some js =>
            if ¬ inp.mouseDown then
              if |js.1| > 0.1 ∨ |js.2| > 0.1 then
                { p with rotation := atan2 (-js.2) js.1 }
              else p
            else
              { p with rotation :=
                  atan2 (inp.mouse.2 + cam.2 - p.position.2)
                        (inp.mouse.1 + cam.1 - p.position.1) }
          | none =>
            { p with rotation :=
                atan2 (inp.mouse.2 + cam.2 - p.position.2)
                      (inp.mouse.1 + cam.1 - p.position.1) }
        | none => p
      else p
    | none => p

/-- The velocity-integration section of `Player.update`: tentative next
position, push-out and sliding response on contact, then clamping to
the map bounds minus the radius. -/
noncomputable def Player.integrate (p : Player) (dt : ℝ) (world : World) :
    Player :=
  let next : ℝ × ℝ := (p.position.1 + p.velocity.1 * dt,
                       p.position.2 + p.velocity.2 * dt)
  let p :=
    match world.checkCollision next p.radius with
    | some c =>
      let p := { p with position := (next.1 + c.push.1, next.2 + c.push.2) }
      let dot := p.velocity.1 * c.normal.1 + p.velocity.2 * c.normal.2
      if dot < 0 then
        { p with velocity := (p.velocity.1 - c.normal.1 * dot,
                              p.velocity.2 - c.normal.2 * dot) }
      else p
    | none => { p with position := next }
  { p with position :=
      (max p.radius (min p.position.1 (world.width * TILE_SIZE - p.radius)),
       max p.radius (min p.position.2 (world.height * TILE_SIZE - p.radius))) }

/-- `Player.update`: nothing when dead; otherwise reload completion,
dash timing and input-driven movement/aiming, then velocity integration
with collision resolution. -/
noncomputable def Player.update (p : Player) (dt : ℝ) (world : World)
    (input : Option InputState) (camera : Option (ℝ × ℝ)) : Player :=
  if p.isDead then p
  else (((p.updateReload dt).updateMove dt input camera).integrate dt world)

/-- `Player.moveTo` (AI path-following): count down the re-plan timer,
re-plan once per second (or immediately, with the random jitter draw
`jitter < 0.1`, when the cached path is empty), then steer toward the
next waypoint at speed 300, popping waypoints within 10 units; with no
path, steer straight at the destination. -/
noncomputable def Player.moveTo (p : Player) (dt : ℝ) (target : ℝ × ℝ)
    (world : World) (jitter : ℝ) : Player :=
  let p := { p with pathTimer := p.pathTimer - dt }
  let p :=
    if p.pathTimer ≤ 0 ∨ (p.path = [] ∧ jitter < 0.1) then
      let p := { p with pathTimer := 1.0 }
      match world.findPath p.position target with
      | some path => { p with path := path }
      | none => p
    else p
  match p.path with
  | next :: rest =>
    let dist := Real.sqrt ((next.1 - p.position.1) * (next.1 - p.position.1) +
                          (next.2 - p.position.2) * (next.2 - p.position.2))
    if dist < 10 then { p with path := rest }
    else
      let rot := atan2 (next.2 - p.position.2) (next.1 - p.position.1)
      { p with rotation := rot,
               velocity := (Real.cos rot * 300, Real.sin rot * 300) }
  | [] =>
    let rot := atan2 (target.2 - p.position.2) (target.1 - p.position.1)
    { p with rotation := rot,
             velocity := (Real.cos rot * 300, Real.sin rot * 300) }

/-- Distance-minimising scan used by the AI (`for` loops tracking
`minDist = Infinity`): returns the first strictly closest element
satisfying the filter, with its distance. -/
noncomputable def nearestBy {α : Type} (items : List α) (keep : α → Bool)
    (posOf : α → ℝ × ℝ) (from_ : ℝ × ℝ) : Option (α × ℝ) :=
  items.foldl
    (fun acc it =>
      if keep it then
        let dist := Real.sqrt (((posOf it).1 - from_.1) * ((posOf it).1 - from_.1) +
          ((posOf it).2 - from_.2) * ((posOf it).2 - from_.2))
        match acc with
        | none => some (it, dist)
        | some (_, m) => if dist < m then some (it, dist) else acc
      else acc)
    none

/-- The engage-the-target arm of the AI Fighting state: rotate to face
the target; inside range 400 fire once the 3 s pickup grace period has
elapsed (with doubled spread on constrained-input platforms); outside
range, chase via path-following. -/
noncomputable def aiEngage (p : Player) (dt now : ℝ) (world : World)
    (tgt : Option (Player × ℝ)) (isMobile : Bool) (jitter : ℝ)
    (rands : ℕ → ℝ) : Player × Option (List Bullet) :=
  match tgt with
  | none => (p, none)
  | some (t, dist) =>
    let rot := atan2 (t.position.2 - p.position.2) (t.position.1 - p.position.1)
    let p := { p with rotation := rot }
    if dist < 400 then
      if now / 1000 - p.weaponPickupTime ≥ 3.0 then
        let mult : ℝ := if isMobile then 2.0 else 1.0
        p.shoot now mult rands
      else (p, none)
    else (p.moveTo dt t.position world jitter, none)

/-- `Player.updateAI`: the per-tick decision process of an autonomous
combatant.  Unarmed ⇒ Searching (head for the nearest active loot);
armed ⇒ Fighting (prefer a strictly closer potion when hurt, otherwise
face the nearest living other combatant, firing inside range 400 after
the 3 s pickup grace period, chasing outside it).  Mirrors the call
site in `Engine.update`, where the `potions` argument is left at its
default `[]`.  Returns the updated combatant and any fired bullets. -/
noncomputable def Player.updateAI (p : Player) (dt now : ℝ) (world : World)
    (loot : List Loot) (players : List Player) (isMobile : Bool)
    (potions : List Potion) (jitter : ℝ) (rands : ℕ → ℝ) :
    Player × Option (List Bullet) :=
  if ¬ p.isNPC ∨ p.isDead then (p, none)
  else
    if p.weapon = none then
      let p := { p with aiState := .searching }
      match nearestBy loot (fun l => l.active) (fun l => l.position) p.position with
      | some (l, _) => (p.moveTo dt l.position world jitter, none)
      | none => (p, none)
    else
      let p := { p with aiState := .fighting }
      let tgt := nearestBy players (fun q => ¬ (q.ref = p.ref) ∧ ¬ q.isDead)
        (fun q => q.position) p.position
      let pot :=
        if p.health < 100 then
          nearestBy potions (fun q => q.active) (fun q => q.position) p.position
        else none
      match pot, tgt with
      | some (potion, pd), some (_, td) =>
        if pd < td then (p.moveTo dt potion.position world jitter, none)
        else aiEngage p dt now world tgt isMobile jitter rands
      | some (potion, _), none => (p.moveTo dt potion.position world jitter, none)
      | none, _ => aiEngage p dt now world tgt isMobile jitter rands

/-- The mutable simulation state owned by `Engine` (rendering-only
fields — canvas, zoom, view size, particles — are omitted; `events` is
the log of callback emissions). -/
structure EngineState where
  world : World
  player : Player
  npcs : List Player
  bullets : List Bullet
  loot : List Loot
  potions : List Potion
  explosions : List Explosion
  camera : ℝ × ℝ
  touchShootTarget : Option (ℝ × ℝ)
  gameEndTime : Option ℝ
  events : List GEvent

/-- External per-tick inputs of `Engine.update`: the timestep, the
`performance.now()` sample (milliseconds), the `Input` snapshot, the
platform flag, view/canvas geometry, and the random draws consumed
this tick (player pellets, touch-fire pellets, and per-autonomous-
combatant re-path jitter and pellet draws, indexed by list position). -/
structure Env where
  dt : ℝ
  now : ℝ
  input : InputState
  isMobile : Bool
  viewW : ℝ
  viewH : ℝ
  zoom : ℝ
  canvasLeft : ℝ
  canvasTop : ℝ
  shootRands : ℕ → ℝ
  touchRands : ℕ → ℝ
  npcJitter : ℕ → ℝ
  npcRands : ℕ → ℕ → ℝ

/-- Dereference an entity reference in the current state. -/
def getEnt (s : EngineState) : EntRef → Option Player
  | .player => some s.player
  | .npc pid => s.npcs.find? (fun n => n.pid = pid)

/-- Write back through an entity reference (object mutation). -/
def setEnt (s : EngineState) : EntRef → Player → EngineState
  | .player, e => { s with player := e }
  | .npc pid, e =>
    { s with npcs := s.npcs.map (fun n => if n.pid = pid then e else n) }

/-- The death-side-effect block of `Engine.damageEntity`, entered
exactly once per combatant (on the lethal application to a not-yet-dead
target, after `isDead` has been set): either grant the kill-siphon heal
(autonomous target, living controlled combatant, target not already
siphoned from, dealer is specifically the controlled combatant), or —
when the dead combatant is the controlled one — end the match as a
loss: freeze the stopwatch once, emit GAME_OVER and the defeat
payload.  `e` is the just-killed target as stored in `s`. -/
noncomputable def deathEffects (s : EngineState) (target : EntRef)
    (e : Player) (dealer : Option EntRef) (now : ℝ) : EngineState :=
  if e.isNPC ∧ ¬ s.player.isDead ∧ ¬ e.siphoned ∧
      dealer = some EntRef.player then
    let s2 := setEnt s target { e with siphoned := true }
    let healAmount : ℝ := 30
    let missing := s2.player.maxHealth - s2.player.health
    if healAmount > missing then
      { s2 with player := { s2.player with
          health := s2.player.maxHealth,
          shield := min 50 (s2.player.shield + (healAmount - missing)) } }
    else
      { s2 with player := { s2.player with
          health := s2.player.health + healAmount } }
  else if ¬ e.isNPC then
    let s2 := if s.gameEndTime = none then
      { s with gameEndTime := some now } else s
    { s2 with events := s2.events ++
        [.stateChange .gameOver, .winner .gameOver] }
  else s

/-- `Engine.damageEntity`: record the last-damage instant, absorb into
shield first, subtract the remainder from health; if health drops to or
below zero on a target not already dead, mark it dead and run the
death-side-effect block `deathEffects`. -/
noncomputable def damageEntity (s : EngineState) (target : EntRef)
    (amount : ℝ) (dealer : Option EntRef) (now : ℝ) : EngineState :=
  match getEnt s target with
  | none => s
  | some e0 =>
    let e : Player := { e0 with lastDamageTime := now / 1000 }
    if e.shield > 0 ∧ e.shield ≥ amount then
      setEnt s target { e with shield := e.shield - amount }
    else
      let amount2 : ℝ := if e.shield > 0 then amount - e.shield else amount
      let e2 : Player := if e.shield > 0 then { e with shield := 0 } else e
      let e : Player := { e2 with health := e2.health - amount2 }
      if e.health ≤ 0 then
        if e.isDead then setEnt s target e
        else
          let e : Player := { e with isDead := true }
          deathEffects (setEnt s target e) target e dealer now
      else setEnt s target e

/-- Tick phase 2 (player intents): reload on R, dash on Space, and the
drop-weapon edge trigger on Q, which throws the equipped weapon 50
units forward as new loot, clamped into the map. -/
noncomputable def inputPhase (env : Env) (s : EngineState) : EngineState :=
  let s := if env.input.keyR then { s with player := s.player.reload } else s
  let s :=
    if env.input.keySpace then { s with player := (s.player.dash env.now).1 }
    else s
  if env.input.keyQ ∧ ¬ s.player.dropRequested then
    let p := { s.player with dropRequested := true }
    match p.weapon with
    | some w =>
      let dropX := p.position.1 + Real.cos p.rotation * 50
      let dropY := p.position.2 + Real.sin p.rotation * 50
      let safeX := max TILE_SIZE (min dropX (s.world.width * TILE_SIZE - TILE_SIZE))
      let safeY := max TILE_SIZE (min dropY (s.world.height * TILE_SIZE - TILE_SIZE))
      { s with player := { p with weapon := none },
               loot := s.loot ++ [{ position := (safeX, safeY), weapon := w }] }
    | none => { s with player := p }
  else if ¬ env.input.keyQ then
    { s with player := { s.player with dropRequested := false } }
  else s

/-- Tick phase 3: integrate the controlled combatant's movement and then
let the camera follow. -/
noncomputable def movePhase (env : Env) (s : EngineState) : EngineState :=
  let p := s.player.update env.dt s.world (some env.input) (some s.camera)
  { s with player := p,
           camera := (p.position.1 - env.viewW / 2, p.position.2 - env.viewH / 2) }

/-- Tick phase 4: mouse-held fire for the controlled combatant. -/
noncomputable def shootPhase (env : Env) (s : EngineState) : EngineState :=
  if env.input.mouseDown then
    let r := s.player.shoot env.now 1.0 env.shootRands
    { s with player := r.1, bullets := s.bullets ++ r.2.getD [] }
  else s

/-- Tick phase 5: touch auto-fire — convert the stored touch target
from screen to world coordinates, aim at it, and fire. -/
noncomputable def touchPhase (env : Env) (s : EngineState) : EngineState :=
  match s.touchShootTarget with
  | none => s
  | some t =>
    let canvasX := t.1 - env.canvasLeft
    let canvasY := t.2 - env.canvasTop
    let worldX := canvasX / env.zoom + s.camera.1
    let worldY := canvasY / env.zoom + s.camera.2
    let rot := atan2 (worldY - s.player.position.2) (worldX - s.player.position.1)
    let p := { s.player with rotation := rot }
    let r := p.shoot env.now 1.0 env.touchRands
    { s with player := r.1, bullets := s.bullets ++ r.2.getD [] }

instance : Inhabited Player := ⟨mkPlayer 0 0 0 true⟩

instance : Inhabited Bullet :=
  ⟨{ position := (0, 0), velocity := (0, 0), radius := 3, active := false,
     lifeTime := 0, damage := 0, isRocket := false, owner := none }⟩

instance : Inhabited Loot := ⟨{ position := (0, 0), weapon := .smg }⟩

instance : Inhabited Potion := ⟨{ position := (0, 0) }⟩

instance : Inhabited Explosion := ⟨mkExplosion 0 0 none⟩

/-- Squared-sum Euclidean distance as written at the call sites
(`Math.sqrt(dx ** 2 + dy ** 2)`). -/
noncomputable def distR (a b : ℝ × ℝ) : ℝ :=
  Real.sqrt ((a.1 - b.1) * (a.1 - b.1) + (a.2 - b.2) * (a.2 - b.2))

/-- Tick phase 6, one autonomous combatant: run its decision process
(collecting any fired bullets) and then its physics update, writing the
mutations back in place. -/
noncomputable def npcStep (env : Env) (s : EngineState) (i : ℕ) : EngineState :=
  let npc := s.npcs.getD i default
  let r := npc.updateAI env.dt env.now s.world s.loot (s.player :: s.npcs)
      env.isMobile [] (env.npcJitter i) (env.npcRands i)
  let s := { s with npcs := s.npcs.set i r.1,
                    bullets := s.bullets ++ r.2.getD [] }
  let npc2 := (s.npcs.getD i default).update env.dt s.world none none
  { s with npcs := s.npcs.set i npc2 }

/-- Tick phase 6: the `this.npcs.forEach` loop. -/
noncomputable def npcPhase (env : Env) (s : EngineState) : EngineState :=
  (List.range s.npcs.length).foldl (npcStep env) s

/-- The `this.npcs.forEach` body inside the bullet loop: a bullet hits
any autonomous combatant other than its owner that it overlaps,
deactivating the bullet, applying direct damage, and spawning an
explosion for rockets. -/
noncomputable def bulletNpcCheck (env : Env) (b : Bullet) (i : ℕ)
    (s : EngineState) (j : ℕ) : EngineState :=
  let npc := s.npcs.getD j default
  if ¬ (b.owner = some (EntRef.npc npc.pid)) then
    let dist := distR b.position npc.position
    if dist < npc.radius + b.radius then
      let s := { s with bullets := s.bullets.set i { b with active := false } }
      let s := damageEntity s (.npc npc.pid) b.damage b.owner env.now
      if b.isRocket then
        { s with explosions := s.explosions ++
            [mkExplosion b.position.1 b.position.2 b.owner] }
      else s
    else s
  else s

/-- Tick phase 7, one bullet: advance it, collide with walls (damaging
destructible ones and detonating rockets), then against the controlled
combatant (unless it owns the bullet) and every autonomous combatant. -/
noncomputable def bulletStep (env : Env) (s : EngineState) (i : ℕ) : EngineState :=
  let b := (s.bullets.getD i default).update env.dt
  let s := { s with bullets := s.bullets.set i b }
  let tileX : ℤ := ⌊b.position.1 / TILE_SIZE⌋
  let tileY : ℤ := ⌊b.position.2 / TILE_SIZE⌋
  let tile := s.world.getTile tileX tileY
  let s :=
    if tile = .wall ∨ tile = .indestructible then
      let s := { s with bullets := s.bullets.set i { b with active := false } }
      let s :=
        if tile = .wall then
          { s with world := s.world.damageWall tileX tileY b.damage }
        else s
      if b.isRocket then
        { s with explosions := s.explosions ++
            [mkExplosion b.position.1 b.position.2 b.owner] }
      else s
    else s
  let s :=
    if ¬ (b.owner = some EntRef.player) then
      let dist := distR b.position s.player.position
      if dist < s.player.radius + b.radius then
        let s := { s with bullets := s.bullets.set i { b with active := false } }
        let s := damageEntity s .player b.damage b.owner env.now
        if b.isRocket then
          { s with explosions := s.explosions ++
              [mkExplosion b.position.1 b.position.2 b.owner] }
        else s
      else s
    else s
  (List.range s.npcs.length).foldl (bulletNpcCheck env b i) s

/-- Tick phase 7: the bullet loop (the source iterates indices from the
end of the array down to 0) followed by pruning inactive bullets. -/
noncomputable def bulletPhase (env : Env) (s : EngineState) : EngineState :=
  let s := ((List.range s.bullets.length).reverse).foldl (bulletStep env) s
  { s with bullets := s.bullets.filter (fun b => b.active) }

/-- Inclusive integer range `a..b` (loop `for (d = a; d <= b; d++)`). -/
def rangeZ (a b : ℤ) : List ℤ :=
  (List.range (b - a + 1).toNat).map (fun i => a + (i : ℤ))

/-- The `this.npcs.forEach` body inside the explosion loop: every
autonomous combatant strictly inside the max radius takes the linearly
falling-off damage — with no owner exemption. -/
noncomputable def expNpcCheck (env : Env) (e : Explosion) (s : EngineState)
    (j : ℕ) : EngineState :=
  let npc := s.npcs.getD j default
  let dist := distR e.position npc.position
  if dist < e.maxRadius then
    damageEntity s (.npc npc.pid) (100 * (1 - dist / e.maxRadius)) e.owner env.now
  else s

/-- Tick phase 8, one explosion: advance the easing/lifetime state; on a
tick satisfying the `timeElapsed < dt * 1.5` first-tick test, apply
area damage to the controlled combatant and all autonomous combatants
(no owner exemption) and damage all destructible walls within
`ceil(maxRadius / TILE_SIZE)` tiles. -/
noncomputable def explosionStep (env : Env) (s : EngineState) (i : ℕ) :
    EngineState :=
  let e := (s.explosions.getD i default).update env.dt
  let s := { s with explosions := s.explosions.set i e }
  if e.timeElapsed < env.dt * 1.5 then
    let s :=
      let pDist := distR e.position s.player.position
      if pDist < e.maxRadius then
        damageEntity s .player (100 * (1 - pDist / e.maxRadius)) e.owner env.now
      else s
    let s := (List.range s.npcs.length).foldl (expNpcCheck env e) s
    let ex : ℤ := ⌊e.position.1 / TILE_SIZE⌋
    let ey : ℤ := ⌊e.position.2 / TILE_SIZE⌋
    let range : ℤ := ⌈e.maxRadius / TILE_SIZE⌉
    let w2 := (rangeZ (-range) range).foldl
      (fun w dx => (rangeZ (-range) range).foldl
        (fun w dy => w.damageWall (ex + dx) (ey + dy) 50) w) s.world
    { s with world := w2 }
  else s

/-- Tick phase 8: the explosion loop (indices from the end down to 0)
followed by pruning expired explosions. -/
noncomputable def explosionPhase (env : Env) (s : EngineState) : EngineState :=
  let s := ((List.range s.explosions.length).reverse).foldl (explosionStep env) s
  { s with explosions := s.explosions.filter (fun e => e.active) }

/-- The `this.npcs.forEach` body inside the loot loop: an unarmed
autonomous combatant in pickup range equips the weapon, fills the
magazine, records the pickup time, and deactivates the loot. -/
noncomputable def lootNpcCheck (env : Env) (i : ℕ) (s : EngineState) (j : ℕ) :
    EngineState :=
  let l := s.loot.getD i default
  let npc := s.npcs.getD j default
  let dist := distR l.position npc.position
  if dist < npc.radius + l.radius then
    if npc.weapon = none then
      { s with
        npcs := s.npcs.set j { npc with
          weapon := some l.weapon,
          currentAmmo := (WEAPONS l.weapon).magSize,
          maxAmmo := (WEAPONS l.weapon).magSize,
          weaponPickupTime := env.now / 1000 },
        loot := s.loot.set i { l with active := false } }
    else s
  else s

/-- Tick phase 9, one loot item: if still active at entry, offer it to
the controlled combatant (picked up only when unarmed), then to every
autonomous combatant (the source re-enters the `forEach` body without
re-checking the active flag it already read). -/
noncomputable def lootStep (env : Env) (s : EngineState) (i : ℕ) : EngineState :=
  let l := s.loot.getD i default
  if l.active then
    let s :=
      let dist := distR l.position s.player.position
      if dist < s.player.radius + l.radius then
        if s.player.weapon = none then
          { s with
            player := { s.player with
              weapon := some l.weapon,
              currentAmmo := (WEAPONS l.weapon).magSize,
              maxAmmo := (WEAPONS l.weapon).magSize },
            loot := s.loot.set i { l with active := false } }
        else s
      else s
    (List.range s.npcs.length).foldl (lootNpcCheck env i) s
  else s

/-- Tick phase 9: the loot loop followed by pruning taken loot. -/
noncomputable def lootPhase (env : Env) (s : EngineState) : EngineState :=
  let s := (List.range s.loot.length).foldl (lootStep env) s
  { s with loot := s.loot.filter (fun l => l.active) }

/-- Tick phase 10, one potion: if active and overlapping the controlled
combatant, consume it — heal 50, with any surplus beyond max health
routed to the shield, clamped at max shield — and deactivate it. -/
noncomputable def potionStep (s : EngineState) (i : ℕ) : EngineState :=
  let pt := s.potions.getD i default
  if pt.active then
    let dist := distR pt.position s.player.position
    if dist < s.player.radius + pt.radius then
      let s := { s with potions := s.potions.set i { pt with active := false } }
      let healAmount : ℝ := 50
      let missing := s.player.maxHealth - s.player.health
      if healAmount > missing then
        { s with player := { s.player with
            health := s.player.maxHealth,
            shield := min s.player.maxShield
              (s.player.shield + (healAmount - missing)) } }
      else
        { s with player := { s.player with
            health := s.player.health + healAmount } }
    else s
  else s

/-- Tick phase 10: the potion loop followed by pruning consumed
potions. -/
noncomputable def potionPhase (s : EngineState) : EngineState :=
  let s := (List.range s.potions.length).foldl potionStep s
  { s with potions := s.potions.filter (fun p => p.active) }

/-- Tick phase 11: prune dead autonomous combatants. -/
def cleanupPhase (s : EngineState) : EngineState :=
  { s with npcs := s.npcs.filter (fun n => ¬ n.isDead) }

/-- Tick phase 12: the victory check — whenever no autonomous combatant
remains and the controlled combatant lives, freeze the stopwatch (only
once) and emit the victory payload and GAME_OVER (on every such tick;
the emissions themselves carry no once-only guard). -/
noncomputable def victoryPhase (env : Env) (s : EngineState) : EngineState :=
  if s.npcs.length = 0 ∧ ¬ s.player.isDead then
    let s := if s.gameEndTime = none then { s with gameEndTime := some env.now }
      else s
    { s with events := s.events ++ [.winner .player, .stateChange .gameOver] }
  else s

/-- Tick phase 13: passive regeneration 5 s after the last damage. -/
noncomputable def regenPhase (env : Env) (s : EngineState) : EngineState :=
  if env.now / 1000 - s.player.lastDamageTime > 5 then
    { s with player := { s.player with
        health := min s.player.maxHealth (s.player.health + env.dt * 2) } }
  else s

/-- `Engine.update`, one full tick: the global-restart check (modelled
as `none`, discarding the state for a fresh match), the early return
when the controlled combatant is dead, then the phases in source
order. -/
noncomputable def engineUpdate (env : Env) (s : EngineState) :
    Option EngineState :=
  if env.input.keyR ∧ (s.player.isDead ∨ s.npcs.length = 0) then none
  else if s.player.isDead then some s
  else some (regenPhase env (victoryPhase env (cleanupPhase (potionPhase
    (lootPhase env (explosionPhase env (bulletPhase env (npcPhase env
    (touchPhase env (shootPhase env (movePhase env (inputPhase env s))))))))))))

/-- A sequence of ticks (the host loop feeding
`Engine.update`); `none` once any tick restarts the match. -/
noncomputable def runTicks (envs : List Env) (s : EngineState) :
    Option EngineState :=
  envs.foldl (fun acc e => acc.bind (engineUpdate e)) (some s)

/-- A sequence of damage applications to one fixed target (amount,
dealer, `performance.now()` sample each). -/
noncomputable def runDamage (target : EntRef)
    (apps : List (ℝ × Option EntRef × ℝ)) (s : EngineState) : EngineState :=
  apps.foldl (fun s a => damageEntity s target a.1 a.2.1 a.2.2) s

/-- One operation of the combatant weapon state machine, as invoked by
the engine: a fire attempt, a reload request, or a per-tick update. -/
inductive PlayerOp where
  | fire (now mult : ℝ) (rands : ℕ → ℝ)
  | reloadOp
  | tick (dt : ℝ) (world : World) (inp : Option InputState) (cam : Option (ℝ × ℝ))

/-- Apply one combatant operation. -/
noncomputable def applyOp (p : Player) : PlayerOp → Player
  | .fire now mult rands => (p.shoot now mult rands).1
  | .reloadOp => p.reload
  | .tick dt w i c => p.update dt w i c

/-- Run a sequence of combatant operations. -/
noncomputable def runOps (p : Player) (ops : List PlayerOp) : Player :=
  ops.foldl applyOp p

/-- Orthogonal tile adjacency. -/
def AdjZ (q r : ℤ × ℤ) : Prop :=
  (q.1 = r.1 ∧ (q.2 = r.2 + 1 ∨ r.2 = q.2 + 1)) ∨
  (q.2 = r.2 ∧ (q.1 = r.1 + 1 ∨ r.1 = q.1 + 1))

instance (q r : ℤ × ℤ) : Decidable (AdjZ q r) := by unfold AdjZ; infer_instance

/-- A tile a combatant can stand on: Floor or SpecialFloor. -/
def WalkableTile (g : ℤ → ℤ → TileType) (t : ℤ × ℤ) : Prop :=
  g t.1 t.2 = .floor ∨ g t.1 t.2 = .cityHouseFloor

instance (g : ℤ → ℤ → TileType) (t : ℤ × ℤ) : Decidable (WalkableTile g t) := by
  unfold WalkableTile; infer_instance

/-- Reachability through Floor/SpecialFloor tiles by orthogonal moves,
starting anywhere the map generator's connectivity flood fill starts. -/
inductive ReachFrom (g : ℤ → ℤ → TileType) (start : ℤ × ℤ) : ℤ × ℤ → Prop where
  | refl : ReachFrom g start start
  | step {q r : ℤ × ℤ} : ReachFrom g start q → AdjZ q r → WalkableTile g r →
      ReachFrom g start r

/-- An in-bounds tile the pathfinding BFS may traverse (not Wall, not
IndestructibleWall). -/
def okTile (w : World) (n : ℤ × ℤ) : Prop :=
  (0 ≤ n.1 ∧ n.1 < w.width ∧ 0 ≤ n.2 ∧ n.2 < w.height) ∧
  w.tiles n.1 n.2 ≠ .wall ∧ w.tiles n.1 n.2 ≠ .indestructible

instance (w : World) (n : ℤ × ℤ) : Decidable (okTile w n) := by
  unfold okTile; infer_instance

/-- Tile-level reachability as explored by `World.findPath`: orthogonal
moves into in-bounds non-wall tiles (the start tile itself is not
required to be passable, matching the BFS, which never inspects it). -/
inductive PathReach (w : World) (start : ℤ × ℤ) : ℤ × ℤ → Prop where
  | refl : PathReach w start start
  | step {q r : ℤ × ℤ} : PathReach w start q → AdjZ q r → okTile w r →
      PathReach w start r

/-- The tile holding a world point. -/
noncomputable def tileOf (p : ℝ × ℝ) : ℤ × ℤ :=
  (⌊p.1 / TILE_SIZE⌋, ⌊p.2 / TILE_SIZE⌋)

/-- The all-walls noise outcome (`Math.random() < 0.43` at every tile). -/
def noiseAll : ℤ → ℤ → Bool := fun _ _ => true

/-- The sprinkle outcome that turns exactly the corridor tile (10,5)
indestructible. -/
def indCorr : ℤ → ℤ → Bool := fun x y => decide (x = 10 ∧ y = 5)

/-- A fixed widening-direction outcome. -/
def dirZero : ℤ → ℤ → Fin 4 := fun _ _ => 0

/-- The 50×50 map generated from those random outcomes. -/
def gen4 : ℤ → ℤ → TileType := genTiles 50 50 noiseAll indCorr dirZero

/-- The isolated spawn pocket of `gen4`: the force-cleared 3×3 room
plus the corridor stub cut off by the indestructible tile (10,5). -/
def spawnPocket : List (ℤ × ℤ) :=
  [(4,4),(4,5),(4,6),(5,4),(5,5),(5,6),(6,4),(6,5),(6,6),(7,5),(8,5),(9,5)]

/-- The tiles surrounding `spawnPocket` (all solid in `gen4`). -/
def pocketBoundary : List (ℤ × ℤ) :=
  [(3,4),(3,5),(3,6),(4,3),(5,3),(6,3),(4,7),(5,7),(6,7),(7,4),(7,6),
   (8,4),(8,6),(9,4),(9,6),(10,5)]

/-- A 50×50 arena with an indestructible border and open floor,
used as the concrete mid-match map of the trace theorems. -/
def worldOpen : World :=
  { width := 50, height := 50,
    tiles := fun x y =>
      if x = 0 ∨ x = 49 ∨ y = 0 ∨ y = 49 then .indestructible else .floor,
    wallHealth := fun _ _ => 100 }

/-- A tiny all-floor world for the pathfinding counterexample. -/
def worldTiny : World :=
  { width := 5, height := 5, tiles := fun _ _ => .floor,
    wallHealth := fun _ _ => 100 }

/-- An idle input snapshot: no keys, no mouse button, no joystick. -/
def inputIdle : InputState :=
  { keyW := false, keyS := false, keyA := false, keyD := false,
    keyR := false, keySpace := false, keyQ := false,
    mouse := (0, 0), mouseDown := false, joystick := none }

/-- A tick environment with idle input. -/
def envIdle (dt now : ℝ) : Env :=
  { dt := dt, now := now, input := inputIdle, isMobile := false,
    viewW := 800, viewH := 600, zoom := 1, canvasLeft := 0, canvasTop := 0,
    shootRands := fun _ => 0, touchRands := fun _ => 0,
    npcJitter := fun _ => 1, npcRands := fun _ _ => 0 }

/-- Mid-match state in which the last autonomous combatant has just
been eliminated: the controlled combatant lives, all collections are
empty, and no outcome has been emitted yet. -/
def sVictory : EngineState :=
  { world := worldOpen, player := mkPlayer 0 1000 1000 false, npcs := [],
    bullets := [], loot := [], potions := [], explosions := [],
    camera := (0, 0), touchShootTarget := none, gameEndTime := none,
    events := [] }

/-- An unarmed, motionless autonomous combatant at (100,100). -/
def npcC3 : Player := mkPlayer 1 100 100 true

/-- A freshly spawned explosion at (130,100) — 30 units from `npcC3` —
owned by the controlled combatant's rocket. -/
def expC3 : Explosion := mkExplosion 130 100 (some .player)

/-- Mid-match state for the explosion-lifetime trace: one live
autonomous combatant 30 units from a fresh explosion, the controlled
combatant far away. -/
def sC3 : EngineState :=
  { world := worldOpen, player := mkPlayer 0 1000 100 false,
    npcs := [npcC3], bullets := [], loot := [], potions := [],
    explosions := [expC3], camera := (0, 0), touchShootTarget := none,
    gameEndTime := none, events := [] }

/-- A combatant with partial shield and health for the shield-absorption
witness. -/
def playerW1 : Player := { mkPlayer 0 100 100 false with shield := 30, health := 80 }

/-- Engine state for the shield-absorption witness. -/
def sW1 : EngineState :=
  { world := worldOpen, player := playerW1, npcs := [], bullets := [],
    loot := [], potions := [], explosions := [], camera := (0, 0),
    touchShootTarget := none, gameEndTime := none, events := [] }

/-- A full-shield combatant to witness the overkill branch. -/
def playerW1b : Player := { mkPlayer 0 100 100 false with shield := 10, health := 80 }

/-- Engine state for the overkill witness. -/
def sW1b : EngineState := { sW1 with player := playerW1b }

/-- An autonomous combatant at 5 health for the kill-siphon witness. -/
def npcW5 : Player := { mkPlayer 7 200 200 true with health := 5 }

/-- Engine state for the kill-siphon witness: the controlled combatant
at 80/100 health and 0 shield, one autonomous combatant at 5 health. -/
def sW5 : EngineState :=
  { sW1 with player := { mkPlayer 0 100 100 false with health := 80 },
             npcs := [npcW5] }

/-- An already-dead autonomous combatant. -/
def npcW8 : Player := { mkPlayer 3 300 300 true with isDead := true, health := 0 }

/-- Engine state for the idempotent-death witness. -/
def sW8 : EngineState := { sW1 with player := mkPlayer 0 100 100 false,
                                    npcs := [npcW8] }

/-- Engine state for the potion witness: a hurt controlled combatant
standing on an active potion. -/
def sW9 : EngineState :=
  { sW1 with player := { mkPlayer 0 100 100 false with health := 70 },
             potions := [{ position := (100, 100) }] }

/-- A non-rocket bullet owned by the controlled combatant. -/
def bulletW10 : Bullet :=
  { position := (120, 100), velocity := (0, 0), radius := 3, active := true,
    lifeTime := 1, damage := 12, isRocket := false, owner := some .player }

/-- Engine state for the self-blast witness: the controlled combatant 30
units from its own rocket's fresh explosion, with one of its own
bullets overlapping it as well. -/
def sW10 : EngineState :=
  { sW1 with player := mkPlayer 0 100 100 false,
             bullets := [bulletW10],
             explosions := [mkExplosion 130 100 (some .player)] }

/-- An armed combatant with an empty magazine, mid fire interval. -/
def pW6 : Player :=
  { mkPlayer 0 0 0 false with weapon := some .smg, currentAmmo := 0,
                              maxAmmo := 25, lastShotTime := 100 }

/-- A quiescent mid-match state: no autonomous combatants, projectiles,
items or effects remain, the controlled combatant lives, and no touch
target is set. -/
def Peaceful (s : EngineState) : Prop :=
  s.npcs = [] ∧ s.bullets = [] ∧ s.loot = [] ∧ s.potions = [] ∧
  s.explosions = [] ∧ s.touchShootTarget = none ∧ s.player.isDead = false

/-- The `sC3` explosion after the first 0.1 s tick: lifetime advanced,
easing radius recomputed, still active. -/
noncomputable def expC3a : Explosion :=
  { position := (130, 100),
    radius := 10 + (50 - 10) * Real.sin (0.1 / 0.5 * Real.pi),
    maxRadius := 50, duration := 0.5, timeElapsed := 0.1, active := true,
    owner := some .player }

/-- The `sC3` autonomous combatant after the first blast application:
40 area damage taken (distance 30 of max radius 50). -/
def npcC3a : Player := { npcC3 with health := 60, lastDamageTime := 0.5 }

/-- The `sC3` explosion after the second (0.3 s) tick. -/
noncomputable def expC3b : Explosion :=
  { position := (130, 100),
    radius := 10 + (50 - 10) * Real.sin ((0.1 + 0.3) / 0.5 * Real.pi),
    maxRadius := 50, duration := 0.5, timeElapsed := 0.1 + 0.3,
    active := true, owner := some .player }

/-- The full engine state after the first 0.1 s tick of the `sC3`
explosion trace. -/
noncomputable def sC3a : EngineState :=
  { sC3 with npcs := [npcC3a], explosions := [expC3a] }

/-- The all-wall interior grid: what the noise fill produces when every
draw lands below the threshold. -/
def allW : ℤ → ℤ → TileType :=
  fun x y =>
    if x = 0 ∨ x = 49 ∨ y = 0 ∨ y = 49 then .indestructible else .wall

/-- `allW` after the indestructible sprinkle hitting exactly (10,5). -/
def g2c : ℤ → ℤ → TileType :=
  fun x y => if x = 10 ∧ y = 5 then .indestructible else allW x y

/-- Closed form of `gen4`: only the city carve, the corridor carve and
the spawn-room clear survive on the all-wall outcome. -/
def gen4closed : ℤ → ℤ → TileType :=
  roomStage (corridorCarve 50 50 (cityStage 50 50 g2c))

/-- Invariant of the BFS `cameFrom` record: distinct keys, the start
tile stored with a null parent and it alone, every other entry holding
a passable tile adjacent to its parent, the parent recorded earlier,
and every key reachable from the start. -/
structure GoodCF (w : World) (sT : ℤ × ℤ)
    (cf : List ((ℤ × ℤ) × Option (ℤ × ℤ))) : Prop where
  nodup : (cf.map Prod.fst).Nodup
  start : ((sT, none) : (ℤ × ℤ) × Option (ℤ × ℤ)) ∈ cf
  none_start : ∀ k : ℤ × ℤ, ((k, none) : (ℤ × ℤ) × Option (ℤ × ℤ)) ∈ cf → k = sT
  par : ∀ i : ℕ, ∀ hi : i < cf.length, ∀ p : ℤ × ℤ,
    (cf.get ⟨i, hi⟩).2 = some p →
    AdjZ p (cf.get ⟨i, hi⟩).1 ∧ okTile w (cf.get ⟨i, hi⟩).1 ∧
      ∃ j : ℕ, ∃ hj : j < cf.length, j < i ∧ (cf.get ⟨j, hj⟩).1 = p
  reach : ∀ k ∈ cf.map Prod.fst, PathReach w sT k

/-! ### Library of structural lemmas -/

theorem find_map_update (l : List Player) (pid : ℕ) (v : Player)
    (hv : v.pid = pid)
    (hex : (l.find? (fun n => n.pid = pid)).isSome) :
    (l.map (fun n => if n.pid = pid then v else n)).find?
      (fun n => n.pid = pid) = some v := by
  induction l with
  | nil => simp at hex
  | cons n rest ih =>
    by_cases h : n.pid = pid
    · simp [List.find?, h, hv]
    · rw [List.find?_cons_of_neg _ (by simpa using h)] at hex
      simp only [List.map, if_neg h]
      rw [List.find?_cons_of_neg _ (by simpa using h)]
      exact ih hex

theorem getEnt_setEnt_same (s : EngineState) (t : EntRef) (e v : Player)
    (he : getEnt s t = some e) (hv : v.pid = e.pid) :
    getEnt (setEnt s t v) t = some v := by
  cases t with
  | player => simp [getEnt, setEnt]
  | npc pid =>
    simp only [getEnt, setEnt] at he ⊢
    have hpid : e.pid = pid := by
      have := List.find?_some he
      simpa using this
    exact find_map_update _ _ _ (hv.trans hpid) (by rw [he]; rfl)

theorem getEnt_player_setEnt_npc (s : EngineState) (pid : ℕ) (v : Player) :
    (setEnt s (.npc pid) v).player = s.player := rfl

theorem setEnt_events (s : EngineState) (t : EntRef) (v : Player) :
    (setEnt s t v).events = s.events := by cases t <;> rfl

theorem setEnt_gameEndTime (s : EngineState) (t : EntRef) (v : Player) :
    (setEnt s t v).gameEndTime = s.gameEndTime := by cases t <;> rfl

theorem getEnt_npc_set_player (s : EngineState) (pid : ℕ) (p : Player) :
    getEnt { s with player := p } (.npc pid) = getEnt s (.npc pid) := rfl

theorem deathEffects_getEnt (s : EngineState) (t : EntRef) (e : Player)
    (dealer : Option EntRef) (now : ℝ)
    (he : getEnt s t = some e) (hde : e.isDead = true)
    (hpl : t = EntRef.player → s.player = e) :
    ∃ e2, getEnt (deathEffects s t e dealer now) t = some e2 ∧
      e2.health = e.health ∧ e2.shield = e.shield ∧ e2.pid = e.pid ∧
      e2.isDead = e.isDead := by
  unfold deathEffects
  by_cases h1 : e.isNPC = true ∧ ¬ s.player.isDead = true ∧
      ¬ e.siphoned = true ∧ dealer = some EntRef.player
  · rw [if_pos h1]
    cases t with
    | player => exact absurd (hpl rfl ▸ hde) (by simpa using h1.2.1)
    | npc pid =>
      have h2' := getEnt_setEnt_same s (.npc pid) e
        { e with siphoned := true } he rfl
      rw [apply_ite (fun st => getEnt st (EntRef.npc pid))]
      simp only [getEnt_npc_set_player, ite_self]
      exact ⟨_, h2', rfl, rfl, rfl, rfl⟩
  · rw [if_neg h1]
    by_cases h2 : ¬ e.isNPC = true
    · rw [if_pos h2]
      by_cases hg : s.gameEndTime = none
      · rw [if_pos hg]; exact ⟨e, he, rfl, rfl, rfl, rfl⟩
      · rw [if_neg hg]; exact ⟨e, he, rfl, rfl, rfl, rfl⟩
    · rw [if_neg h2]; exact ⟨e, he, rfl, rfl, rfl, rfl⟩

theorem damageEntity_target (s : EngineState) (t : EntRef) (e : Player)
    (d : ℝ) (dealer : Option EntRef) (now : ℝ)
    (he : getEnt s t = some e) :
    ∃ e2, getEnt (damageEntity s t d dealer now) t = some e2 ∧
      e2.pid = e.pid ∧
      (e.shield > 0 ∧ e.shield ≥ d →
        e2.health = e.health ∧ e2.shield = e.shield - d) ∧
      (¬ (e.shield > 0 ∧ e.shield ≥ d) →
        e2.health = e.health - (if e.shield > 0 then d - e.shield else d) ∧
        e2.shield = (if e.shield > 0 then (0 : ℝ) else e.shield)) := by
  simp only [damageEntity, he]
  by_cases hc : e.shield > 0 ∧ e.shield ≥ d
  · rw [if_pos (by simpa using hc)]
    exact ⟨_, getEnt_setEnt_same s t e _ he rfl, rfl,
      fun _ => ⟨rfl, rfl⟩, fun h => absurd hc h⟩
  · rw [if_neg (by simpa using hc)]
    by_cases hsp : e.shield > 0
    · simp only [if_pos hsp]
      by_cases hh : e.health - (d - e.shield) ≤ 0
      · rw [if_pos hh]
        by_cases hdead : e.isDead = true
        · rw [if_pos hdead]
          exact ⟨_, getEnt_setEnt_same s t e _ he rfl, rfl,
            fun h => absurd h hc, fun _ => ⟨rfl, rfl⟩⟩
        · rw [if_neg hdead]
          obtain ⟨e2, hget, hhp, hsh, hpid, _⟩ :=
            deathEffects_getEnt
              (setEnt s t
                { e with shield := 0, health := e.health - (d - e.shield),
                         lastDamageTime := now / 1000, isDead := true }) t
              { e with shield := 0, health := e.health - (d - e.shield),
                       lastDamageTime := now / 1000, isDead := true } dealer now
              (getEnt_setEnt_same s t e _ he rfl) rfl
              (fun ht => by subst ht; rfl)
          exact ⟨e2, hget, hpid, fun h => absurd h hc, fun _ => ⟨hhp, hsh⟩⟩
      · rw [if_neg hh]
        exact ⟨_, getEnt_setEnt_same s t e _ he rfl, rfl,
          fun h => absurd h hc, fun _ => ⟨rfl, rfl⟩⟩
    · simp only [if_neg hsp]
      by_cases hh : e.health - d ≤ 0
      · rw [if_pos hh]
        by_cases hdead : e.isDead = true
        · rw [if_pos hdead]
          exact ⟨_, getEnt_setEnt_same s t e _ he rfl, rfl,
            fun h => absurd h hc, fun _ => ⟨rfl, rfl⟩⟩
        · rw [if_neg hdead]
          obtain ⟨e2, hget, hhp, hsh, hpid, _⟩ :=
            deathEffects_getEnt
              (setEnt s t
                { e with health := e.health - d,
                         lastDamageTime := now / 1000, isDead := true }) t
              { e with health := e.health - d,
                       lastDamageTime := now / 1000, isDead := true } dealer now
              (getEnt_setEnt_same s t e _ he rfl) rfl
              (fun ht => by subst ht; rfl)
          exact ⟨e2, hget, hpid, fun h => absurd h hc, fun _ => ⟨hhp, hsh⟩⟩
      · rw [if_neg hh]
        exact ⟨_, getEnt_setEnt_same s t e _ he rfl, rfl,
          fun h => absurd h hc, fun _ => ⟨rfl, rfl⟩⟩

/-! ### C1 — shield before health -/

/-- C1: For every combatant and every damage application through the
combat resolver, a damage amount `d ≤ shield` leaves health unchanged
and shield `= s − d`, while `d > shield` zeroes the shield and leaves
health `= h − (d − s)` (damage amounts in this program are
nonnegative, and shields never go negative). -/
theorem c1_shield_before_health (s : EngineState) (t : EntRef) (e : Player)
    (d : ℝ) (dealer : Option EntRef) (now : ℝ)
    (he : getEnt s t = some e)
    (hd : 0 ≤ d) (hs : 0 ≤ e.shield) :
    ∃ e2, getEnt (damageEntity s t d dealer now) t = some e2 ∧
      (d ≤ e.shield → e2.health = e.health ∧ e2.shield = e.shield - d) ∧
      (e.shield < d → e2.shield = 0 ∧ e2.health = e.health - (d - e.shield)) := by
  obtain ⟨e2, hget, _, habs, hrest⟩ :=
    damageEntity_target s t e d dealer now he
  refine ⟨e2, hget, fun hle => ?_, fun hlt => ?_⟩
  · by_cases hsp : e.shield > 0
    · exact habs ⟨hsp, hle⟩
    · have hs0 : e.shield = 0 := le_antisymm (not_lt.mp hsp) hs
      have hd0 : d = 0 := le_antisymm (hs0 ▸ hle) hd
      obtain ⟨h1, h2⟩ := hrest (by rw [hs0, hd0]; simp)
      rw [if_neg (by rw [hs0]; exact lt_irrefl 0)] at h1 h2
      constructor
      · rw [h1, hd0, sub_zero]
      · rw [h2, hd0, sub_zero]
  · have hc : ¬ (e.shield > 0 ∧ e.shield ≥ d) := fun h => absurd h.2 (not_le.mpr hlt)
    obtain ⟨h1, h2⟩ := hrest hc
    by_cases hsp : e.shield > 0
    · rw [if_pos hsp] at h1 h2
      exact ⟨h2, h1⟩
    · have hs0 : e.shield = 0 := le_antisymm (not_lt.mp hsp) hs
      rw [if_neg hsp] at h1 h2
      refine ⟨h2.trans hs0, ?_⟩
      rw [h1, hs0, sub_zero]

/-- Witness for C1 at concrete inputs: 12 damage against 30 shield
(absorbed), and 50 damage against 10 shield and 80 health (overkill
into health). -/
theorem c1_witness :
    (∃ e2, getEnt (damageEntity sW1 .player 12 none 0) .player = some e2 ∧
      e2.health = 80 ∧ e2.shield = 18) ∧
    (∃ e2, getEnt (damageEntity sW1b .player 50 none 0) .player = some e2 ∧
      e2.shield = 0 ∧ e2.health = 40) := by
  constructor
  · obtain ⟨e2, hget, h1, _⟩ :=
      c1_shield_before_health sW1 .player playerW1 12 none 0 rfl
        (by norm_num) (by norm_num [playerW1, mkPlayer])
    obtain ⟨hh, hsh⟩ := h1 (by norm_num [playerW1, mkPlayer])
    refine ⟨e2, hget, ?_, ?_⟩
    · rw [hh]; norm_num [playerW1, mkPlayer]
    · rw [hsh]; norm_num [playerW1, mkPlayer]
  · obtain ⟨e2, hget, _, h2⟩ :=
      c1_shield_before_health sW1b .player playerW1b 50 none 0 rfl
        (by norm_num) (by norm_num [playerW1b, mkPlayer])
    obtain ⟨hsh, hh⟩ := h2 (by norm_num [playerW1b, mkPlayer])
    refine ⟨e2, hget, hsh, ?_⟩
    rw [hh]; norm_num [playerW1b, mkPlayer]

/-! ### C5 — kill siphon -/

/-- C5: When a damage application kills an autonomous combatant (lethal
hit on a not-yet-dead target), the dealer is the controlled combatant,
the controlled combatant is alive, and the target has not yet triggered
a siphon, the controlled combatant is healed by 30 with the excess over
max health routed to shield, capped at its max shield (which the engine
keeps at 50); the target ends dead with its siphon consumed. -/
theorem c5_kill_siphon (s : EngineState) (pid : ℕ) (e : Player)
    (d : ℝ) (dealer : Option EntRef) (now : ℝ)
    (he : getEnt s (.npc pid) = some e)
    (hnpc : e.isNPC = true) (hdead : e.isDead = false)
    (hsiph : e.siphoned = false)
    (hpalive : s.player.isDead = false)
    (hdealer : dealer = some EntRef.player)
    (hshield : 0 ≤ e.shield) (hlow : e.shield < d)
    (hkill : e.health - (d - e.shield) ≤ 0)
    (hms : s.player.maxShield = 50)
    (hsh : s.player.shield ≤ s.player.maxShield) :
    (damageEntity s (.npc pid) d dealer now).player.health =
      min (s.player.health + 30) s.player.maxHealth ∧
    (damageEntity s (.npc pid) d dealer now).player.shield =
      min s.player.maxShield (s.player.shield +
        max 0 (30 - (s.player.maxHealth - s.player.health))) ∧
    ∃ e2, getEnt (damageEntity s (.npc pid) d dealer now) (.npc pid) = some e2 ∧
      e2.isDead = true ∧ e2.siphoned = true := by
  have hc : ¬ (e.shield > 0 ∧ e.shield ≥ d) :=
    fun h => absurd h.2 (not_le.mpr hlow)
  simp only [damageEntity, he]
  rw [if_neg (by simpa using hc)]
  have key : ∀ (e4 : Player), e4.isNPC = true → e4.siphoned = false →
      e4.pid = e.pid →
      (deathEffects (setEnt s (.npc pid) e4) (.npc pid) e4 dealer now).player.health =
        min (s.player.health + 30) s.player.maxHealth ∧
      (deathEffects (setEnt s (.npc pid) e4) (.npc pid) e4 dealer now).player.shield =
        min s.player.maxShield (s.player.shield +
          max 0 (30 - (s.player.maxHealth - s.player.health))) ∧
      ∃ e2, getEnt (deathEffects (setEnt s (.npc pid) e4) (.npc pid) e4 dealer now)
          (.npc pid) = some e2 ∧ e2.isDead = e4.isDead ∧ e2.siphoned = true := by
    intro e4 h4npc h4siph h4pid
    unfold deathEffects
    rw [if_pos (by
      refine ⟨h4npc, ?_, by simp [h4siph], hdealer⟩
      rw [getEnt_player_setEnt_npc]
      simp [hpalive])]
    simp only [getEnt_player_setEnt_npc]
    have hget2 : getEnt (setEnt (setEnt s (.npc pid) e4) (.npc pid)
        { e4 with siphoned := true }) (.npc pid) = some { e4 with siphoned := true } := by
      have h1 := getEnt_setEnt_same s (.npc pid) e e4 he
        (by rw [h4pid])
      exact getEnt_setEnt_same _ (.npc pid) e4 _ h1 rfl
    by_cases hheal : (30 : ℝ) > s.player.maxHealth - s.player.health
    · rw [if_pos hheal]
      refine ⟨?_, ?_, ⟨_, hget2, rfl, rfl⟩⟩
      · show s.player.maxHealth = _
        rw [min_eq_right (by linarith)]
      · show min 50 (s.player.shield + (30 - (s.player.maxHealth - s.player.health))) = _
        rw [hms, max_eq_right (by linarith)]
    · rw [if_neg hheal]
      refine ⟨?_, ?_, ⟨_, hget2, rfl, rfl⟩⟩
      · show s.player.health + 30 = _
        rw [min_eq_left (by linarith)]
      · show s.player.shield = _
        rw [max_eq_left (by linarith), add_zero, min_eq_right hsh]
  by_cases hsp : e.shield > 0
  · simp only [if_pos hsp]
    rw [if_pos hkill, if_neg (by simp [hdead])]
    exact key _ hnpc hsiph rfl
  · have hs0 : e.shield = 0 := le_antisymm (not_lt.mp hsp) hshield
    simp only [if_neg hsp]
    rw [if_pos (by rw [hs0] at hkill; simpa using hkill),
        if_neg (by simp [hdead])]
    exact key _ hnpc hsiph rfl

/-- Witness for C5: killing an autonomous combatant (5 health, 0
shield) with 5 damage attributed to the controlled combatant at 80/100
health and 0 shield yields health 100 and shield 10. -/
theorem c5_witness :
    (damageEntity sW5 (.npc 7) 5 (some .player) 0).player.health = 100 ∧
    (damageEntity sW5 (.npc 7) 5 (some .player) 0).player.shield = 10 := by
  obtain ⟨h1, h2, _⟩ := c5_kill_siphon sW5 7 npcW5 5 (some .player) 0
    (by norm_num [getEnt, sW5, sW1, npcW5, mkPlayer, List.find?])
    rfl rfl rfl rfl rfl
    (by norm_num [npcW5, mkPlayer]) (by norm_num [npcW5, mkPlayer])
    (by norm_num [npcW5, mkPlayer]) rfl
    (by norm_num [sW5, sW1, mkPlayer])
  constructor
  · rw [h1]; norm_num [sW5, sW1, mkPlayer]
  · rw [h2]; norm_num [sW5, sW1, mkPlayer]

/-! ### C8 — idempotent death -/

theorem damageEntity_dead_frame (s : EngineState) (t : EntRef) (e : Player)
    (d : ℝ) (dealer : Option EntRef) (now : ℝ)
    (he : getEnt s t = some e) (hde : e.isDead = true) :
    (damageEntity s t d dealer now).events = s.events ∧
    (damageEntity s t d dealer now).gameEndTime = s.gameEndTime ∧
    (t ≠ EntRef.player → (damageEntity s t d dealer now).player = s.player) ∧
    ∃ e2, getEnt (damageEntity s t d dealer now) t = some e2 ∧
      e2.isDead = true ∧ e2.siphoned = e.siphoned := by
  have base : ∀ (v : Player), v.pid = e.pid → v.isDead = true →
      v.siphoned = e.siphoned →
      (setEnt s t v).events = s.events ∧
      (setEnt s t v).gameEndTime = s.gameEndTime ∧
      (t ≠ EntRef.player → (setEnt s t v).player = s.player) ∧
      ∃ e2, getEnt (setEnt s t v) t = some e2 ∧
        e2.isDead = true ∧ e2.siphoned = e.siphoned := by
    intro v h1 h2 h3
    refine ⟨setEnt_events s t v, setEnt_gameEndTime s t v, fun hne => ?_, _,
      getEnt_setEnt_same s t e v he h1, h2, h3⟩
    cases t with
    | player => exact absurd rfl hne
    | npc pid => rfl
  simp only [damageEntity, he]
  by_cases hc : e.shield > 0 ∧ e.shield ≥ d
  · rw [if_pos (by simpa using hc)]
    exact base _ rfl hde rfl
  · rw [if_neg (by simpa using hc)]
    by_cases hsp : e.shield > 0
    · simp only [if_pos hsp]
      by_cases hh : e.health - (d - e.shield) ≤ 0
      · rw [if_pos hh, if_pos hde]
        exact base _ rfl hde rfl
      · rw [if_neg hh]
        exact base _ rfl hde rfl
    · simp only [if_neg hsp]
      by_cases hh : e.health - d ≤ 0
      · rw [if_pos hh, if_pos hde]
        exact base _ rfl hde rfl
      · rw [if_neg hh]
        exact base _ rfl hde rfl

/-- C8: Applying damage resolution to a combatant already marked dead —
any number of times, with any amounts, dealers and timestamps — emits
no events, never changes the stopwatch freeze or the match outcome,
leaves the controlled combatant untouched (in particular no siphon
heal) when the target is an autonomous combatant, and leaves the target
dead with its siphon flag unchanged. -/
theorem c8_idempotent_death (s : EngineState) (t : EntRef) (e : Player)
    (apps : List (ℝ × Option EntRef × ℝ))
    (he : getEnt s t = some e) (hde : e.isDead = true) :
    (runDamage t apps s).events = s.events ∧
    (runDamage t apps s).gameEndTime = s.gameEndTime ∧
    (t ≠ EntRef.player → (runDamage t apps s).player = s.player) ∧
    ∃ e2, getEnt (runDamage t apps s) t = some e2 ∧
      e2.isDead = true ∧ e2.siphoned = e.siphoned := by
  induction apps generalizing s e with
  | nil => exact ⟨rfl, rfl, fun _ => rfl, e, he, hde, rfl⟩
  | cons a rest ih =>
    obtain ⟨hev, hge, hpl, e2, hget, hdd, hsi⟩ :=
      damageEntity_dead_frame s t e a.1 a.2.1 a.2.2 he hde
    obtain ⟨hev2, hge2, hpl2, e3, hget3, hdd3, hsi3⟩ :=
      ih (damageEntity s t a.1 a.2.1 a.2.2) e2 hget hdd
    have hrun : runDamage t (a :: rest) s =
        runDamage t rest (damageEntity s t a.1 a.2.1 a.2.2) := rfl
    rw [hrun]
    exact ⟨hev2.trans hev, hge2.trans hge,
      fun hne => (hpl2 hne).trans (hpl hne),
      e3, hget3, hdd3, hsi3.trans hsi⟩

/-- Witness for C8: hitting an already-dead autonomous combatant twice
more (20 then 35 damage) emits nothing, does not end the match, and
leaves the controlled combatant exactly as it was. -/
theorem c8_witness :
    (runDamage (.npc 3) [(20, some .player, 7), (35, none, 9)] sW8).events = [] ∧
    (runDamage (.npc 3) [(20, some .player, 7), (35, none, 9)] sW8).gameEndTime
      = none ∧
    (runDamage (.npc 3) [(20, some .player, 7), (35, none, 9)] sW8).player
      = sW8.player := by
  obtain ⟨h1, h2, h3, _⟩ := c8_idempotent_death sW8 (.npc 3) npcW8
    [(20, some .player, 7), (35, none, 9)]
    (by norm_num [getEnt, sW8, sW1, npcW8, mkPlayer, List.find?]) rfl
  refine ⟨by rw [h1]; rfl, by rw [h2]; rfl, h3 (by simp)⟩

/-! ### C9 — potion heal with shield overflow -/

theorem getD_of_get? {α : Type} [Inhabited α] (l : List α) (i : ℕ) (v : α)
    (h : l.get? i = some v) : l.getD i default = v := by
  rw [List.getD_eq_getElem?_getD, ← List.get?_eq_getElem?, h]; rfl

/-- C9: When the controlled combatant consumes a potion, it is healed by
exactly 50, any surplus beyond max health is added to the shield
clamped at max shield (so a potion can raise the shield), and the
potion is deactivated in the same tick. -/
theorem c9_potion (s : EngineState) (i : ℕ) (pt : Potion)
    (hpt : s.potions.get? i = some pt)
    (hact : pt.active = true)
    (hdist : distR pt.position s.player.position <
      s.player.radius + pt.radius)
    (hsh : s.player.shield ≤ s.player.maxShield) :
    (potionStep s i).player.health =
      min (s.player.health + 50) s.player.maxHealth ∧
    (potionStep s i).player.shield =
      min s.player.maxShield (s.player.shield +
        max 0 (50 - (s.player.maxHealth - s.player.health))) ∧
    (potionStep s i).potions.get? i = some { pt with active := false } := by
  have hlen : i < s.potions.length := (List.get?_eq_some.mp hpt).choose
  unfold potionStep
  rw [getD_of_get? _ _ _ hpt, if_pos hact, if_pos hdist]
  have hset : (s.potions.set i { pt with active := false }).get? i =
      some { pt with active := false } := by
    rw [List.get?_set_eq_of_lt _ hlen]
  by_cases h50 : (50 : ℝ) > s.player.maxHealth - s.player.health
  · rw [if_pos h50]
    refine ⟨?_, ?_, hset⟩
    · show s.player.maxHealth = _
      rw [min_eq_right (by linarith)]
    · show min s.player.maxShield
        (s.player.shield + (50 - (s.player.maxHealth - s.player.health))) = _
      rw [max_eq_right (by linarith)]
  · rw [if_neg h50]
    refine ⟨?_, ?_, hset⟩
    · show s.player.health + 50 = _
      rw [min_eq_left (by linarith)]
    · show s.player.shield = _
      rw [max_eq_left (by linarith), add_zero, min_eq_right hsh]

/-- Witness for C9: a 70/100-health, 0-shield combatant consumes a
potion where it stands; health becomes 100 and shield 20, and the
potion is spent. -/
theorem c9_witness :
    (potionStep sW9 0).player.health = 100 ∧
    (potionStep sW9 0).player.shield = 20 ∧
    (potionStep sW9 0).potions.get? 0 =
      some { position := (100, 100), active := false } := by
  obtain ⟨h1, h2, h3⟩ := c9_potion sW9 0 { position := (100, 100) } rfl rfl
    (by norm_num [distR, sW9, sW1, mkPlayer, Real.sqrt_zero])
    (by norm_num [sW9, sW1, mkPlayer])
  refine ⟨?_, ?_, h3⟩
  · rw [h1]; norm_num [sW9, sW1, mkPlayer]
  · rw [h2]; norm_num [sW9, sW1, mkPlayer]

/-! ### C6 — ammo bounds and empty-magazine fire -/

theorem reload_ammo (p : Player) :
    p.reload.currentAmmo = p.currentAmmo ∧ p.reload.maxAmmo = p.maxAmmo := by
  unfold Player.reload
  repeat' split
  all_goals simp

theorem shoot_ammo (p : Player) (now mult : ℝ) (rands : ℕ → ℝ)
    (h : 0 ≤ p.currentAmmo) :
    0 ≤ (p.shoot now mult rands).1.currentAmmo ∧
    (p.shoot now mult rands).1.maxAmmo = p.maxAmmo := by
  unfold Player.shoot
  split
  · exact ⟨h, rfl⟩
  · split_ifs with h1 h2 h3
    · exact ⟨h, rfl⟩
    · exact ⟨(reload_ammo p).1 ▸ h, (reload_ammo p).2⟩
    · refine ⟨show 0 ≤ p.currentAmmo - 1 by omega, rfl⟩
    · exact ⟨h, rfl⟩

theorem updateReload_ammo (p : Player) (dt : ℝ) :
    (p.updateReload dt).maxAmmo = p.maxAmmo ∧
    ((p.updateReload dt).currentAmmo = p.currentAmmo ∨
     (p.updateReload dt).currentAmmo = p.maxAmmo) := by
  unfold Player.updateReload
  dsimp only
  split_ifs
  all_goals first
    | exact ⟨rfl, Or.inl rfl⟩
    | exact ⟨rfl, Or.inr rfl⟩

theorem updateMove_ammo (p : Player) (dt : ℝ) (i : Option InputState)
    (c : Option (ℝ × ℝ)) :
    (p.updateMove dt i c).maxAmmo = p.maxAmmo ∧
    (p.updateMove dt i c).currentAmmo = p.currentAmmo := by
  unfold Player.updateMove
  by_cases hdash : p.isDashing = true
  · rw [if_pos hdash]
    dsimp only
    split_ifs <;> exact ⟨rfl, rfl⟩
  · rw [if_neg hdash]
    cases i with
    | none => exact ⟨rfl, rfl⟩
    | some inp =>
      obtain ⟨kW, kS, kA, kD, kR, kSp, kQ, mouse, mdown, joy⟩ := inp
      dsimp only
      by_cases hn : p.isNPC = true
      · rw [if_neg (not_not_intro hn)]
        exact ⟨rfl, rfl⟩
      · rw [if_pos hn]
        cases joy <;> cases c <;> try dsimp only
        all_goals try split_ifs
        all_goals exact ⟨rfl, rfl⟩

theorem integrate_ammo (p : Player) (dt : ℝ) (w : World) :
    (p.integrate dt w).maxAmmo = p.maxAmmo ∧
    (p.integrate dt w).currentAmmo = p.currentAmmo := by
  unfold Player.integrate
  dsimp only
  repeat' first | split_ifs | split
  all_goals exact ⟨rfl, rfl⟩

theorem update_ammo (p : Player) (dt : ℝ) (w : World) (i : Option InputState)
    (c : Option (ℝ × ℝ)) :
    (p.update dt w i c).maxAmmo = p.maxAmmo ∧
    ((p.update dt w i c).currentAmmo = p.currentAmmo ∨
     (p.update dt w i c).currentAmmo = p.maxAmmo) := by
  unfold Player.update
  split
  · exact ⟨rfl, Or.inl rfl⟩
  · obtain ⟨hm1, ha1⟩ := updateReload_ammo p dt
    obtain ⟨hm2, ha2⟩ := updateMove_ammo (p.updateReload dt) dt i c
    obtain ⟨hm3, ha3⟩ :=
      integrate_ammo ((p.updateReload dt).updateMove dt i c) dt w
    refine ⟨by rw [hm3, hm2, hm1], ?_⟩
    rw [ha3, ha2]
    rcases ha1 with h | h
    · exact Or.inl h
    · exact Or.inr h

/-- C6 (amended): ammo never becomes negative across any sequence of
fire/reload/update operations; and a fire attempt while armed, with an
empty magazine, not already reloading, and with the fire interval
elapsed triggers a reload (and spawns no projectile) instead of
firing.  (A fire attempt inside the fire interval is a silent no-op
even with zero ammo.) -/
theorem c6_ammo :
    (∀ (p : Player) (ops : List PlayerOp),
      0 ≤ p.currentAmmo → 0 ≤ p.maxAmmo →
      0 ≤ (runOps p ops).currentAmmo ∧ 0 ≤ (runOps p ops).maxAmmo) ∧
    (∀ (p : Player) (now mult : ℝ) (rands : ℕ → ℝ) (w : WeaponType),
      p.weapon = some w → p.isReloading = false → p.currentAmmo = 0 →
      p.maxAmmo ≠ 0 →
      now / 1000 - p.lastShotTime ≥ (WEAPONS w).fireRate →
      (p.shoot now mult rands).2 = none ∧
      (p.shoot now mult rands).1.isReloading = true ∧
      (p.shoot now mult rands).1.currentAmmo = 0) := by
  constructor
  · intro p ops
    induction ops generalizing p with
    | nil => exact fun h1 h2 => ⟨h1, h2⟩
    | cons op rest ih =>
      intro h1 h2
      have hstep : 0 ≤ (applyOp p op).currentAmmo ∧
          0 ≤ (applyOp p op).maxAmmo := by
        cases op with
        | fire now mult rands =>
          obtain ⟨ha, hm⟩ := shoot_ammo p now mult rands h1
          exact ⟨ha, hm ▸ h2⟩
        | reloadOp =>
          obtain ⟨ha, hm⟩ := reload_ammo p
          exact ⟨ha ▸ h1, hm ▸ h2⟩
        | tick dt w i c =>
          obtain ⟨hm, ha⟩ := update_ammo p dt w i c
          refine ⟨?_, hm ▸ h2⟩
          rcases ha with ha | ha
          · exact ha ▸ h1
          · exact ha ▸ hm ▸ h2
      exact ih (applyOp p op) hstep.1 hstep.2
  · intro p now mult rands w hw hrel hammo hmax hrate
    simp only [Player.shoot, hw, hrel]
    rw [if_neg (by simp), if_pos hrate,
        if_pos (show p.currentAmmo ≤ 0 by omega)]
    simp only [Player.reload, hw]
    rw [if_neg (by rw [hrel]; simp; omega)]
    exact ⟨by simp, rfl, hammo⟩

/-- Counterexample for C6 as frozen: a fire attempt while armed with
zero ammo and not reloading, but inside the fire interval
(`now − lastShotTime = 0.01 s < 0.08 s`), triggers no reload at all —
the combatant is returned unchanged. -/
theorem c6_counterexample :
    pW6.weapon = some .smg ∧ pW6.currentAmmo = 0 ∧
    pW6.isReloading = false ∧
    Player.shoot pW6 100010 1 (fun _ => 0) = (pW6, none) := by
  refine ⟨rfl, rfl, rfl, ?_⟩
  unfold Player.shoot
  show (if pW6.isReloading = true then (pW6, none)
    else if 100010 / 1000 - pW6.lastShotTime ≥ (WEAPONS .smg).fireRate
      then _ else (pW6, none)) = (pW6, none)
  rw [if_neg (by simp [pW6, mkPlayer]), if_neg (by
    norm_num [pW6, mkPlayer, WEAPONS])]

/-- Witness for C6 (amended): a reload on the empty SMG leaves ammo at
0 (never negative), and a zero-ammo fire attempt with the interval
elapsed starts a reload without spawning a projectile. -/
theorem c6_witness :
    (0 ≤ (runOps pW6 [.reloadOp, .fire 101000 1 (fun _ => 0)]).currentAmmo) ∧
    (pW6.shoot 101000 1 (fun _ => 0)).2 = none ∧
    (pW6.shoot 101000 1 (fun _ => 0)).1.isReloading = true := by
  refine ⟨(c6_ammo.1 pW6 [.reloadOp, .fire 101000 1 (fun _ => 0)]
    (by norm_num [pW6, mkPlayer]) (by norm_num [pW6, mkPlayer])).1, ?_, ?_⟩
  · exact (c6_ammo.2 pW6 101000 1 (fun _ => 0) .smg rfl rfl rfl
      (by norm_num [pW6, mkPlayer]) (by norm_num [pW6, mkPlayer, WEAPONS])).1
  · exact (c6_ammo.2 pW6 101000 1 (fun _ => 0) .smg rfl rfl rfl
      (by norm_num [pW6, mkPlayer]) (by norm_num [pW6, mkPlayer, WEAPONS])).2.1

/-! ### C10 — blast damage has no owner exemption -/

theorem bullet_update_owner (b : Bullet) (dt : ℝ) :
    (b.update dt).owner = b.owner := by
  unfold Bullet.update
  dsimp only
  split_ifs <;> rfl

theorem explosion_update_fields (e : Explosion) (dt : ℝ) :
    (e.update dt).timeElapsed = e.timeElapsed + dt ∧
    (e.update dt).position = e.position ∧
    (e.update dt).maxRadius = e.maxRadius ∧
    (e.update dt).owner = e.owner := by
  unfold Explosion.update
  dsimp only
  split_ifs <;> exact ⟨rfl, rfl, rfl, rfl⟩

theorem damageEntity_player_npcs (s : EngineState) (d : ℝ)
    (dealer : Option EntRef) (now : ℝ) :
    (damageEntity s EntRef.player d dealer now).npcs = s.npcs := by
  unfold damageEntity deathEffects
  dsimp only [getEnt, setEnt]
  split_ifs <;> rfl

theorem damageEntity_player_health (s : EngineState) (d : ℝ)
    (dealer : Option EntRef) (now : ℝ)
    (hsh : ¬ s.player.shield > 0) (hpn : s.player.isNPC = false) :
    (damageEntity s EntRef.player d dealer now).player.health =
      s.player.health - d := by
  unfold damageEntity
  dsimp only [getEnt]
  rw [if_neg (fun h => hsh h.1)]
  simp only [if_neg hsh]
  by_cases hh : s.player.health - d ≤ 0
  · rw [if_pos hh]
    by_cases hdead : s.player.isDead = true
    · rw [if_pos hdead]; rfl
    · rw [if_neg hdead]
      unfold deathEffects
      rw [if_neg (by rintro ⟨h1, -⟩; rw [hpn] at h1; exact absurd h1 (by simp)),
          if_pos (by simp [hpn])]
      dsimp only [setEnt]
      split_ifs <;> rfl
  · rw [if_neg hh]; rfl

/-- C10: Explosion area damage does not exempt the explosion's owner:
with the controlled combatant inside the blast radius of its own
rocket's explosion on the damage tick, its health drops by the
distance-scaled amount `100·(1 − dist/maxRadius)` — whereas a direct
hit check of one of its own bullets never damages it at all. -/
theorem c10_no_owner_exemption (env : Env) (s : EngineState) (i : ℕ)
    (e : Explosion)
    (hexp : s.explosions.get? i = some e)
    (hnpcs : s.npcs = [])
    (howner : e.owner = some EntRef.player)
    (hfirst : e.timeElapsed + env.dt < env.dt * 1.5)
    (hdist : distR e.position s.player.position < e.maxRadius)
    (hsh : ¬ s.player.shield > 0) (hpn : s.player.isNPC = false) :
    ((explosionStep env s i).player.health =
      s.player.health -
        100 * (1 - distR e.position s.player.position / e.maxRadius)) ∧
    ∀ (j : ℕ) (b : Bullet), s.bullets.get? j = some b →
      b.owner = some EntRef.player →
      (bulletStep env s j).player = s.player := by
  constructor
  · obtain ⟨hte, hpos, hmax, _⟩ := explosion_update_fields e env.dt
    unfold explosionStep
    rw [getD_of_get? _ _ _ hexp]
    dsimp only
    rw [if_pos (show (e.update env.dt).timeElapsed < env.dt * 1.5 by
          rw [hte]; exact hfirst),
        if_pos (show distR (e.update env.dt).position s.player.position <
            (e.update env.dt).maxRadius by rw [hpos, hmax]; exact hdist)]
    set sx : EngineState := { s with explosions := s.explosions.set i (e.update env.dt) }
    have hxp : sx.player = s.player := rfl
    have hdmg := damageEntity_player_health sx
      (100 * (1 - distR (e.update env.dt).position s.player.position /
        (e.update env.dt).maxRadius)) (e.update env.dt).owner env.now hsh hpn
    have hdn : (damageEntity sx EntRef.player
        (100 * (1 - distR (e.update env.dt).position s.player.position /
          (e.update env.dt).maxRadius)) (e.update env.dt).owner env.now).npcs
        = s.npcs := damageEntity_player_npcs sx _ _ _
    rw [hdn, hnpcs]
    dsimp only [List.length_nil, List.range_zero, List.foldl_nil]
    rw [hdmg, hpos, hmax]
  · intro j b hj hown
    unfold bulletStep
    rw [getD_of_get? _ _ _ hj]
    dsimp only
    rw [if_neg (not_not_intro (by rw [bullet_update_owner]; exact hown))]
    split_ifs <;> simp [hnpcs]

theorem sqrt_nine_hundred : Real.sqrt 900 = 30 := by
  rw [show (900 : ℝ) = 30 ^ 2 by norm_num, Real.sqrt_sq (by norm_num)]

/-- Witness for C10: the controlled combatant, 30 units from its own
rocket's explosion, drops from 100 to 60 health on the damage tick,
while its own overlapping bullet leaves it untouched. -/
theorem c10_witness :
    (explosionStep (envIdle 0.1 1000) sW10 0).player.health = 60 ∧
    (bulletStep (envIdle 0.1 1000) sW10 0).player = sW10.player := by
  obtain ⟨h1, h2⟩ := c10_no_owner_exemption (envIdle 0.1 1000) sW10 0
    (mkExplosion 130 100 (some .player)) rfl rfl rfl
    (by norm_num [mkExplosion, envIdle])
    (by norm_num [distR, sW10, sW1, mkPlayer, mkExplosion, sqrt_nine_hundred])
    (by norm_num [sW10, sW1, mkPlayer]) rfl
  constructor
  · rw [h1]
    norm_num [distR, sW10, sW1, mkPlayer, mkExplosion, sqrt_nine_hundred]
  · exact h2 0 bulletW10 rfl rfl

/-! ### C2 — victory/defeat emission -/

theorem updateReload_frame (p : Player) (dt : ℝ) :
    (p.updateReload dt).isDead = p.isDead ∧
    (p.updateReload dt).position = p.position ∧
    (p.updateReload dt).velocity = p.velocity ∧
    (p.updateReload dt).rotation = p.rotation ∧
    (p.updateReload dt).health = p.health ∧
    (p.updateReload dt).shield = p.shield ∧
    (p.updateReload dt).lastDamageTime = p.lastDamageTime ∧
    (p.updateReload dt).radius = p.radius ∧
    (p.updateReload dt).isNPC = p.isNPC ∧
    (p.updateReload dt).weapon = p.weapon ∧
    (p.updateReload dt).pid = p.pid ∧
    (p.updateReload dt).isDashing = p.isDashing := by
  unfold Player.updateReload
  dsimp only
  split_ifs <;>
    exact ⟨rfl, rfl, rfl, rfl, rfl, rfl, rfl, rfl, rfl, rfl, rfl, rfl⟩

theorem updateMove_frame (p : Player) (dt : ℝ) (i : Option InputState)
    (c : Option (ℝ × ℝ)) :
    (p.updateMove dt i c).isDead = p.isDead ∧
    (p.updateMove dt i c).position = p.position ∧
    (p.updateMove dt i c).health = p.health ∧
    (p.updateMove dt i c).shield = p.shield ∧
    (p.updateMove dt i c).lastDamageTime = p.lastDamageTime ∧
    (p.updateMove dt i c).radius = p.radius ∧
    (p.updateMove dt i c).isNPC = p.isNPC ∧
    (p.updateMove dt i c).weapon = p.weapon ∧
    (p.updateMove dt i c).pid = p.pid ∧
    (p.updateMove dt i c).isReloading = p.isReloading ∧
    (p.updateMove dt i c).maxHealth = p.maxHealth ∧
    (p.updateMove dt i c).maxShield = p.maxShield := by
  unfold Player.updateMove
  by_cases hdash : p.isDashing = true
  · rw [if_pos hdash]
    dsimp only
    split_ifs <;>
      exact ⟨rfl, rfl, rfl, rfl, rfl, rfl, rfl, rfl, rfl, rfl, rfl, rfl⟩
  · rw [if_neg hdash]
    cases i with
    | none => exact ⟨rfl, rfl, rfl, rfl, rfl, rfl, rfl, rfl, rfl, rfl, rfl, rfl⟩
    | some inp =>
      obtain ⟨kW, kS, kA, kD, kR, kSp, kQ, mouse, mdown, joy⟩ := inp
      dsimp only
      by_cases hn : p.isNPC = true
      · rw [if_neg (not_not_intro hn)]
        exact ⟨rfl, rfl, rfl, rfl, rfl, rfl, rfl, rfl, rfl, rfl, rfl, rfl⟩
      · rw [if_pos hn]
        cases joy <;> cases c <;> try dsimp only
        all_goals try split_ifs
        all_goals
          exact ⟨rfl, rfl, rfl, rfl, rfl, rfl, rfl, rfl, rfl, rfl, rfl, rfl⟩

theorem integrate_frame (p : Player) (dt : ℝ) (w : World) :
    (p.integrate dt w).isDead = p.isDead ∧
    (p.integrate dt w).health = p.health ∧
    (p.integrate dt w).shield = p.shield ∧
    (p.integrate dt w).lastDamageTime = p.lastDamageTime ∧
    (p.integrate dt w).radius = p.radius ∧
    (p.integrate dt w).isNPC = p.isNPC ∧
    (p.integrate dt w).weapon = p.weapon ∧
    (p.integrate dt w).pid = p.pid ∧
    (p.integrate dt w).isReloading = p.isReloading ∧
    (p.integrate dt w).rotation = p.rotation ∧
    (p.integrate dt w).maxHealth = p.maxHealth ∧
    (p.integrate dt w).maxShield = p.maxShield := by
  unfold Player.integrate
  dsimp only
  repeat' first | split_ifs | split
  all_goals
    exact ⟨rfl, rfl, rfl, rfl, rfl, rfl, rfl, rfl, rfl, rfl, rfl, rfl⟩

theorem update_isDead (p : Player) (dt : ℝ) (w : World) (i : Option InputState)
    (c : Option (ℝ × ℝ)) :
    (p.update dt w i c).isDead = p.isDead := by
  unfold Player.update
  split_ifs with h
  · rfl
  · rw [(integrate_frame _ dt w).1, (updateMove_frame _ dt i c).1,
        (updateReload_frame p dt).1]

theorem inputPhase_idle (env : Env) (s : EngineState)
    (h1 : env.input.keyR = false) (h2 : env.input.keySpace = false)
    (h3 : env.input.keyQ = false) :
    inputPhase env s =
      { s with player := { s.player with dropRequested := false } } := by
  unfold inputPhase
  rw [h1, h2, h3]
  simp

theorem movePhase_player (env : Env) (s : EngineState) :
    (movePhase env s).player =
      s.player.update env.dt s.world (some env.input) (some s.camera) := rfl

theorem movePhase_frame (env : Env) (s : EngineState) :
    (movePhase env s).npcs = s.npcs ∧
    (movePhase env s).bullets = s.bullets ∧
    (movePhase env s).loot = s.loot ∧
    (movePhase env s).potions = s.potions ∧
    (movePhase env s).explosions = s.explosions ∧
    (movePhase env s).touchShootTarget = s.touchShootTarget ∧
    (movePhase env s).events = s.events ∧
    (movePhase env s).gameEndTime = s.gameEndTime ∧
    (movePhase env s).world = s.world :=
  ⟨rfl, rfl, rfl, rfl, rfl, rfl, rfl, rfl, rfl⟩

theorem shootPhase_idle (env : Env) (s : EngineState)
    (h : env.input.mouseDown = false) : shootPhase env s = s := by
  unfold shootPhase
  rw [if_neg (by simp [h])]

theorem touchPhase_none (env : Env) (s : EngineState)
    (h : s.touchShootTarget = none) : touchPhase env s = s := by
  unfold touchPhase
  rw [h]

theorem npcPhase_empty (env : Env) (s : EngineState) (h : s.npcs = []) :
    npcPhase env s = s := by
  unfold npcPhase
  rw [h]
  rfl

theorem bulletPhase_empty (env : Env) (s : EngineState) (h : s.bullets = []) :
    bulletPhase env s = s := by
  unfold bulletPhase
  rw [h]
  dsimp only [List.length_nil, List.range_zero, List.reverse_nil,
    List.foldl_nil]
  rw [h]
  dsimp only [List.filter_nil]
  conv_lhs => rw [← h]

theorem explosionPhase_empty (env : Env) (s : EngineState)
    (h : s.explosions = []) : explosionPhase env s = s := by
  unfold explosionPhase
  rw [h]
  dsimp only [List.length_nil, List.range_zero, List.reverse_nil,
    List.foldl_nil]
  rw [h]
  dsimp only [List.filter_nil]
  conv_lhs => rw [← h]

theorem lootPhase_empty (env : Env) (s : EngineState) (h : s.loot = []) :
    lootPhase env s = s := by
  unfold lootPhase
  rw [h]
  dsimp only [List.length_nil, List.range_zero, List.foldl_nil]
  rw [h]
  dsimp only [List.filter_nil]
  conv_lhs => rw [← h]

theorem potionPhase_empty (s : EngineState) (h : s.potions = []) :
    potionPhase s = s := by
  unfold potionPhase
  rw [h]
  dsimp only [List.length_nil, List.range_zero, List.foldl_nil]
  rw [h]
  dsimp only [List.filter_nil]
  conv_lhs => rw [← h]

theorem cleanupPhase_empty (s : EngineState) (h : s.npcs = []) :
    cleanupPhase s = s := by
  unfold cleanupPhase
  rw [h]
  dsimp only [List.filter_nil]
  conv_lhs => rw [← h]

theorem victoryPhase_emit (env : Env) (s : EngineState)
    (hn : s.npcs = []) (hd : s.player.isDead = false) :
    (victoryPhase env s).events =
      s.events ++ [.winner .player, .stateChange .gameOver] ∧
    (victoryPhase env s).npcs = s.npcs ∧
    (victoryPhase env s).player = s.player ∧
    (victoryPhase env s).bullets = s.bullets ∧
    (victoryPhase env s).loot = s.loot ∧
    (victoryPhase env s).potions = s.potions ∧
    (victoryPhase env s).explosions = s.explosions ∧
    (victoryPhase env s).touchShootTarget = s.touchShootTarget := by
  unfold victoryPhase
  rw [if_pos (by simp [hn, hd])]
  by_cases hg : s.gameEndTime = none
  · rw [if_pos hg]; exact ⟨rfl, rfl, rfl, rfl, rfl, rfl, rfl, rfl⟩
  · rw [if_neg hg]; exact ⟨rfl, rfl, rfl, rfl, rfl, rfl, rfl, rfl⟩

theorem regenPhase_frame (env : Env) (s : EngineState) :
    (regenPhase env s).events = s.events ∧
    (regenPhase env s).npcs = s.npcs ∧
    (regenPhase env s).bullets = s.bullets ∧
    (regenPhase env s).loot = s.loot ∧
    (regenPhase env s).potions = s.potions ∧
    (regenPhase env s).explosions = s.explosions ∧
    (regenPhase env s).touchShootTarget = s.touchShootTarget ∧
    (regenPhase env s).player.isDead = s.player.isDead ∧
    (regenPhase env s).gameEndTime = s.gameEndTime := by
  unfold regenPhase
  split_ifs <;> exact ⟨rfl, rfl, rfl, rfl, rfl, rfl, rfl, rfl, rfl⟩

/-- One tick from a quiescent winning state: the engine re-emits the
victory payload and GAME_OVER, and the state stays quiescent. -/
theorem peaceful_tick (env : Env) (s : EngineState)
    (hkR : env.input.keyR = false) (hkSp : env.input.keySpace = false)
    (hkQ : env.input.keyQ = false) (hmd : env.input.mouseDown = false)
    (hp : Peaceful s) :
    ∃ s2, engineUpdate env s = some s2 ∧ Peaceful s2 ∧
      s2.events = s.events ++ [.winner .player, .stateChange .gameOver] := by
  obtain ⟨hn, hb, hl, hpo, hex, ht, hd⟩ := hp
  unfold engineUpdate
  rw [if_neg (by rintro ⟨h, -⟩; rw [hkR] at h; exact absurd h (by simp)),
      if_neg (by simp [hd])]
  rw [inputPhase_idle env s hkR hkSp hkQ]
  set sA : EngineState :=
    { s with player := { s.player with dropRequested := false } } with hsA
  obtain ⟨m1, m2, m3, m4, m5, m6, m7, -, -⟩ := movePhase_frame env sA
  have hXn : (movePhase env sA).npcs = [] := m1.trans hn
  have hXb : (movePhase env sA).bullets = [] := m2.trans hb
  have hXl : (movePhase env sA).loot = [] := m3.trans hl
  have hXpo : (movePhase env sA).potions = [] := m4.trans hpo
  have hXe : (movePhase env sA).explosions = [] := m5.trans hex
  have hXt : (movePhase env sA).touchShootTarget = none := m6.trans ht
  have hXev : (movePhase env sA).events = s.events := m7
  have hXd : (movePhase env sA).player.isDead = false := by
    rw [movePhase_player, update_isDead]
    exact hd
  rw [shootPhase_idle _ _ hmd, touchPhase_none _ _ hXt,
      npcPhase_empty _ _ hXn, bulletPhase_empty _ _ hXb,
      explosionPhase_empty _ _ hXe, lootPhase_empty _ _ hXl,
      potionPhase_empty _ hXpo, cleanupPhase_empty _ hXn]
  obtain ⟨v1, v2, v3, v4, v5, v6, v7, v8⟩ :=
    victoryPhase_emit env (movePhase env sA) hXn hXd
  obtain ⟨r1, r2, r3, r4, r5, r6, r7, r8, -⟩ :=
    regenPhase_frame env (victoryPhase env (movePhase env sA))
  refine ⟨_, rfl, ⟨?_, ?_, ?_, ?_, ?_, ?_, ?_⟩, ?_⟩
  · rw [r2, v2]; exact hXn
  · rw [r3, v4]; exact hXb
  · rw [r4, v5]; exact hXl
  · rw [r5, v6]; exact hXpo
  · rw [r6, v7]; exact hXe
  · rw [r7, v8]; exact hXt
  · rw [r8, v3]; exact hXd
  · rw [r1, v1, hXev]

/-- C2: refuted as stated. Once every autonomous combatant is gone and
the controlled combatant lives, the engine re-emits the victory payload
and the GAME_OVER transition on EVERY subsequent tick, not exactly once:
two consecutive idle ticks from the quiescent winning state `sVictory`
produce the pair twice. -/
theorem c2_bug :
    ∃ s1 s2,
      engineUpdate (envIdle 16 1000) sVictory = some s1 ∧
      engineUpdate (envIdle 16 1016) s1 = some s2 ∧
      s1.events = [.winner .player, .stateChange .gameOver] ∧
      s2.events = [.winner .player, .stateChange .gameOver,
                   .winner .player, .stateChange .gameOver] := by
  obtain ⟨s1, h1, hp1, he1⟩ :=
    peaceful_tick (envIdle 16 1000) sVictory rfl rfl rfl rfl
      ⟨rfl, rfl, rfl, rfl, rfl, rfl, rfl⟩
  obtain ⟨s2, h2, hp2, he2⟩ :=
    peaceful_tick (envIdle 16 1016) s1 rfl rfl rfl rfl hp1
  refine ⟨s1, s2, h1, h2, ?_, ?_⟩
  · rw [he1]; rfl
  · rw [he2, he1]; rfl

theorem open_tiles_ne_wall (x y : ℤ) : worldOpen.tiles x y ≠ .wall := by
  unfold worldOpen
  dsimp only
  split_ifs <;> simp

theorem damageWall_open (x y : ℤ) (a : ℝ) :
    worldOpen.damageWall x y a = worldOpen := by
  unfold World.damageWall
  split_ifs with h1 h2
  · rfl
  · rfl
  · exact absurd (not_not.mp h2) (open_tiles_ne_wall x y)

theorem dw_fold_inner (l2 : List ℤ) (a ey : ℤ) :
    l2.foldl (fun w dy => World.damageWall w a (ey + dy) 50) worldOpen =
    worldOpen := by
  induction l2 with
  | nil => rfl
  | cons b t2 ih2 => rw [List.foldl_cons, damageWall_open]; exact ih2

theorem dw_fold_open (l1 l2 : List ℤ) (ex ey : ℤ) :
    l1.foldl (fun w dx => l2.foldl
      (fun w dy => w.damageWall (ex + dx) (ey + dy) 50) w) worldOpen =
    worldOpen := by
  induction l1 with
  | nil => rfl
  | cons a t ih => rw [List.foldl_cons, dw_fold_inner]; exact ih

theorem sqrt_756900 : Real.sqrt 756900 = 870 := by
  rw [show (756900 : ℝ) = 870 ^ 2 by norm_num, Real.sqrt_sq (by norm_num)]

theorem expC3_update : expC3.update 0.1 = expC3a := by
  unfold Explosion.update expC3 mkExplosion expC3a
  dsimp only
  rw [if_neg (by norm_num)]
  all_goals norm_num

theorem expC3a_update : expC3a.update 0.3 = expC3b := by
  unfold Explosion.update expC3a expC3b
  dsimp only
  rw [if_neg (by norm_num)]
  all_goals norm_num

theorem foldl_expN_one (env : Env) (e : Explosion) (s : EngineState) :
    List.foldl (expNpcCheck env e) s (List.range 1) =
    expNpcCheck env e s 0 := rfl

/-- C3: refuted as stated. Explosion area damage is NOT applied exactly
once per explosion: the `timeElapsed < dt * 1.5` first-tick test can
hold on two consecutive ticks when the second frame is long. From
`sC3` (one combatant 30 units from a fresh explosion), a 0.1 s tick
applies the 40-point fall-off damage (100 to 60), and a following
0.3 s tick applies it again (60 to 20), since 0.1 + 0.3 < 0.3 * 1.5. -/
theorem c3_bug :
    explosionPhase (envIdle 0.1 500) sC3 = sC3a ∧
    (sC3.npcs.getD 0 default).health = 100 ∧
    (sC3a.npcs.getD 0 default).health = 60 ∧
    ((explosionPhase (envIdle 0.3 600) sC3a).npcs.getD 0 default).health
      = 20 := by
  refine ⟨?_, by simp [sC3, npcC3, mkPlayer],
          by simp [sC3a, npcC3a, npcC3, mkPlayer], ?_⟩
  · unfold explosionPhase
    dsimp only [envIdle]
    rw [show (List.range sC3.explosions.length).reverse = [0] from rfl,
        List.foldl_cons, List.foldl_nil]
    unfold explosionStep
    dsimp only [envIdle]
    rw [show sC3.explosions.getD 0 default = expC3 from rfl, expC3_update]
    norm_num [foldl_expN_one, expNpcCheck, damageEntity, deathEffects,
      getEnt, setEnt, distR, sC3, sC3a, expC3a, npcC3, npcC3a, mkPlayer,
      List.find?, sqrt_nine_hundred, sqrt_756900, dw_fold_open,
      EngineState.mk.injEq, Player.mk.injEq, Explosion.mk.injEq,
      Prod.mk.injEq]
  · unfold explosionPhase
    dsimp only [envIdle]
    rw [show (List.range sC3a.explosions.length).reverse = [0] from rfl,
        List.foldl_cons, List.foldl_nil]
    unfold explosionStep
    dsimp only [envIdle]
    rw [show sC3a.explosions.getD 0 default = expC3a from rfl,
        expC3a_update]
    norm_num [foldl_expN_one, expNpcCheck, damageEntity, deathEffects,
      getEnt, setEnt, distR, sC3a, sC3, expC3b, npcC3a, npcC3, mkPlayer,
      List.find?, sqrt_nine_hundred, sqrt_756900, dw_fold_open]

theorem fill_all : fillStage 50 50 noiseAll = allW := by
  funext x y
  unfold fillStage noiseAll allW
  norm_num

theorem wallish_allW (a b : ℤ) : wallish (allW a b) = true := by
  unfold allW wallish
  split_ifs <;> rfl

theorem neigh_allW (x y : ℤ) : neighborCount allW x y = 8 := by
  unfold neighborCount mooreOffsets
  simp [wallish_allW]

theorem smooth_allW : smoothStage 50 50 allW = allW := by
  funext x y
  unfold smoothStage
  dsimp only
  rw [neigh_allW]
  by_cases h : 0 < x ∧ x < 50 - 1 ∧ 0 < y ∧ y < 50 - 1
  · rw [if_pos h, if_pos (by norm_num : (8:ℕ) > 4)]
    unfold allW
    rw [if_neg (by omega)]
  · rw [if_neg h]

theorem smoothN_allW (n : ℕ) : smoothN 50 50 n allW = allW := by
  induction n with
  | zero => rfl
  | succ k ih =>
    rw [show smoothN 50 50 (k + 1) allW =
          smoothN 50 50 k (smoothStage 50 50 allW) from rfl,
        smooth_allW]
    exact ih

theorem sprinkle_g2c : sprinkleStage 50 50 indCorr allW = g2c := by
  funext x y
  by_cases h : x = 10 ∧ y = 5
  · obtain ⟨rfl, rfl⟩ := h
    unfold sprinkleStage indCorr g2c
    rw [if_pos (by decide), if_pos ⟨rfl, rfl⟩]
  · unfold sprinkleStage indCorr g2c
    rw [if_neg (fun hc => h (of_decide_eq_true hc.2.2.2.2.2)), if_neg h]

theorem g2c_nofloor (a b : ℤ) : g2c a b ≠ .floor := by
  unfold g2c allW
  split_ifs <;> decide

theorem widenStep_nofloor (dirR : ℤ → ℤ → Fin 4) (g : ℤ → ℤ → TileType)
    (h : ∀ a b, g a b ≠ .floor) (c : ℤ × ℤ) : widenStep dirR g c = g := by
  unfold widenStep
  rw [if_neg (h c.1 c.2)]

theorem widenFold_nofloor (dirR : ℤ → ℤ → Fin 4) (g : ℤ → ℤ → TileType)
    (h : ∀ a b, g a b ≠ .floor) (l : List (ℤ × ℤ)) :
    l.foldl (fun g c => widenStep dirR g c) g = g := by
  induction l with
  | nil => rfl
  | cons c t ih =>
    simp only [List.foldl_cons]
    rw [widenStep_nofloor dirR g h c]
    exact ih

theorem widen_g2c : widenStage 50 50 dirZero g2c = g2c := by
  unfold widenStage
  exact widenFold_nofloor dirZero g2c g2c_nofloor (widenCells 50 50)

theorem g4c_nofloor (a b : ℤ) : cityStage 50 50 g2c a b ≠ .floor := by
  unfold cityStage g2c allW
  split_ifs <;> decide

theorem seal_g4c (vis : List (ℤ × ℤ)) :
    sealStage 50 50 vis (cityStage 50 50 g2c) = cityStage 50 50 g2c := by
  funext x y
  unfold sealStage
  rw [if_neg]
  rintro ⟨-, -, -, -, hf, -⟩
  exact g4c_nofloor x y hf

theorem gen4_closed : gen4 = gen4closed := by
  unfold gen4 genTiles gen4closed
  dsimp only
  rw [fill_all, smoothN_allW, sprinkle_g2c, widen_g2c, seal_g4c]

theorem pocket_sep (r : ℤ × ℤ) (hr : r ∈ spawnPocket) (q : ℤ × ℤ)
    (ha : AdjZ q r) : q ∈ spawnPocket ∨ q ∈ pocketBoundary := by
  obtain ⟨qx, qy⟩ := q
  have hq : (qx = r.1 + 1 ∧ qy = r.2) ∨ (qx = r.1 - 1 ∧ qy = r.2) ∨
      (qx = r.1 ∧ qy = r.2 + 1) ∨ (qx = r.1 ∧ qy = r.2 - 1) := by
    unfold AdjZ at ha
    dsimp only at ha
    omega
  simp only [spawnPocket, List.mem_cons, List.not_mem_nil, or_false] at hr
  rcases hr with rfl | rfl | rfl | rfl | rfl | rfl | rfl | rfl | rfl | rfl
    | rfl | rfl <;>
    (dsimp only at hq;
     rcases hq with ⟨rfl, rfl⟩ | ⟨rfl, rfl⟩ | ⟨rfl, rfl⟩ | ⟨rfl, rfl⟩ <;>
       decide)

theorem boundary_solid (b : ℤ × ℤ) (hb : b ∈ pocketBoundary) :
    ¬ WalkableTile gen4closed b := by
  revert hb
  revert b
  decide

/-- C4: refuted. On the all-wall noise outcome with the indestructible
sprinkle hitting the corridor tile (10,5), the generated 50×50 map has
a Floor tile — the force-cleared spawn room's (4,4) — that is NOT
reachable from the walkable map-center tile (25,25): the corridor
carve converts only Wall tiles and stops at the IndestructibleWall,
leaving the spawn pocket sealed behind solid tiles. -/
theorem c4_bug :
    WalkableTile gen4 (25, 25) ∧ WalkableTile gen4 (4, 4) ∧
    ¬ ReachFrom gen4 (25, 25) (4, 4) := by
  refine ⟨by rw [gen4_closed]; decide, by rw [gen4_closed]; decide, ?_⟩
  rw [gen4_closed]
  intro hreach
  have key : ∀ t, ReachFrom gen4closed (25, 25) t →
      t ∉ spawnPocket ∧ (t = (25, 25) ∨ WalkableTile gen4closed t) := by
    intro t ht
    induction ht with
    | refl => exact ⟨by decide, Or.inl rfl⟩
    | @step q r hq hadj hwalk ih =>
      refine ⟨?_, Or.inr hwalk⟩
      intro hrP
      obtain ⟨hqP, hqW⟩ := ih
      rcases pocket_sep r hrP q hadj with hin | hb
      · exact hqP hin
      · rcases hqW with rfl | hw
        · revert hb; decide
        · exact boundary_solid q hb hw
  exact (key (4, 4) hreach).1 (by decide)

theorem cfLookup_eq_none (cf : List ((ℤ × ℤ) × Option (ℤ × ℤ))) (t : ℤ × ℤ) :
    cfLookup cf t = none ↔ t ∉ cf.map Prod.fst := by
  unfold cfLookup
  simp [List.find?_eq_none, List.mem_map]
  constructor
  · intro h x hx
    exact h t.1 t.2 x (by simpa using hx) rfl
  · intro h a b v hv heq
    rw [heq] at hv
    exact h v hv

theorem cfLookup_mem (cf : List ((ℤ × ℤ) × Option (ℤ × ℤ)))
    (hn : (cf.map Prod.fst).Nodup) (k : ℤ × ℤ) (v : Option (ℤ × ℤ))
    (hm : (k, v) ∈ cf) : cfLookup cf k = some v := by
  induction cf with
  | nil => cases hm
  | cons e cf ih =>
    simp only [List.map_cons, List.nodup_cons] at hn
    rcases List.mem_cons.mp hm with rfl | hm2
    · unfold cfLookup
      rw [List.find?_cons_of_pos _ (by simp)]
      rfl
    · have hne : e.1 ≠ k := by
        rintro rfl
        exact hn.1 (List.mem_map.mpr ⟨(e.1, v), hm2, rfl⟩)
      unfold cfLookup
      rw [List.find?_cons_of_neg _ (by simp [hne])]
      exact ih hn.2 hm2

theorem adj_iff_pathNeighbors (c n : ℤ × ℤ) :
    n ∈ pathNeighbors c ↔ AdjZ c n := by
  obtain ⟨nx, ny⟩ := n
  obtain ⟨cx, cy⟩ := c
  simp only [pathNeighbors, AdjZ, List.mem_cons, List.not_mem_nil, or_false,
    Prod.mk.injEq]
  constructor <;> intro h <;> omega

theorem goodCF_snoc (w : World) (sT : ℤ × ℤ)
    (cf : List ((ℤ × ℤ) × Option (ℤ × ℤ))) (hg : GoodCF w sT cf)
    (n current : ℤ × ℤ) (hfresh : n ∉ cf.map Prod.fst)
    (hadj : AdjZ current n) (hok : okTile w n)
    (hcur : current ∈ cf.map Prod.fst) :
    GoodCF w sT (cf ++ [(n, some current)]) := by
  constructor
  · simp only [List.map_append, List.map_cons, List.map_nil]
    rw [List.nodup_append]
    exact ⟨hg.nodup, List.nodup_singleton n,
      by simpa using fun h => hfresh h⟩
  · exact List.mem_append_left _ hg.start
  · intro k hk
    rcases List.mem_append.mp hk with h | h
    · exact hg.none_start k h
    · simp at h
  · intro i hi p hp
    by_cases hlt : i < cf.length
    · have hget : (cf ++ [(n, some current)]).get ⟨i, hi⟩ = cf.get ⟨i, hlt⟩ := by
        exact List.getElem_append_left hlt
      rw [hget] at hp ⊢
      obtain ⟨h1, h2, j, hj, hji, hjk⟩ := hg.par i hlt p hp
      refine ⟨h1, h2, j, by simp; omega, hji, ?_⟩
      rw [show (cf ++ [(n, some current)]).get
            ⟨j, by simp; omega⟩ = cf.get ⟨j, hj⟩ from
          List.getElem_append_left hj]
      exact hjk
    · have hieq : i = cf.length := by
        have := hi
        simp only [List.length_append, List.length_cons, List.length_nil] at this
        omega
      subst hieq
      have hget : (cf ++ [(n, some current)]).get ⟨cf.length, hi⟩ =
          (n, some current) := by
        simp
      rw [hget] at hp ⊢
      have hpc : p = current := by
        simpa using hp.symm
      obtain ⟨e, he, he1⟩ := List.mem_map.mp hcur
      obtain ⟨⟨j, hj⟩, hgj⟩ := List.mem_iff_get.mp he
      refine ⟨by rw [hpc]; exact hadj, hok, j, by simp; omega, hj, ?_⟩
      rw [show (cf ++ [(n, some current)]).get
            ⟨j, by simp; omega⟩ = cf.get ⟨j, hj⟩ from
          List.getElem_append_left hj]
      rw [hgj, he1, hpc]
  · intro k hk
    simp only [List.map_append, List.map_cons, List.map_nil] at hk
    rcases List.mem_append.mp hk with h | h
    · exact hg.reach k h
    · have : k = n := by simpa using h
      subst this
      exact PathReach.step (hg.reach current hcur) hadj hok

theorem reconstruct_spec (w : World) (sT : ℤ × ℤ)
    (cf : List ((ℤ × ℤ) × Option (ℤ × ℤ))) (hg : GoodCF w sT cf) :
    ∀ (n fuel : ℕ) (cur : ℤ × ℤ) (i : ℕ) (hi : i < cf.length),
      (cf.get ⟨i, hi⟩).1 = cur → i ≤ n → n < fuel →
      ∃ l, reconstruct cf fuel cur = l ∧ l.head? = some cur ∧
        l.getLast? = some sT ∧ l.Chain' (fun a b => AdjZ b a) ∧
        ∀ t ∈ l, t ≠ sT → okTile w t := by
  intro n
  induction n using Nat.strong_induction_on with
  | _ n ih =>
    intro fuel cur i hi hkey hin hnf
    obtain ⟨m, rfl⟩ : ∃ m, fuel = m + 1 := ⟨fuel - 1, by omega⟩
    have hmem : cf.get ⟨i, hi⟩ ∈ cf := cf.get_mem i hi
    have hentry : ((cur, (cf.get ⟨i, hi⟩).2) : (ℤ × ℤ) × Option (ℤ × ℤ)) ∈ cf := by
      have heq : ((cur, (cf.get ⟨i, hi⟩).2) : (ℤ × ℤ) × Option (ℤ × ℤ)) =
          cf.get ⟨i, hi⟩ := by
        rw [← hkey]
      rw [heq]
      exact hmem
    have hlook : cfLookup cf cur = some (cf.get ⟨i, hi⟩).2 :=
      cfLookup_mem cf hg.nodup cur _ hentry
    cases hv : (cf.get ⟨i, hi⟩).2 with
    | none =>
      rw [hv] at hlook
      have hcs : cur = sT := by
        rw [hv] at hentry
        exact hg.none_start cur hentry
      refine ⟨[cur], ?_, rfl, by simp [hcs], by simp, ?_⟩
      · simp only [reconstruct]
        rw [hlook]
      · intro t ht hts
        simp only [List.mem_singleton] at ht
        exact absurd (ht.trans hcs) hts
    | some p =>
      rw [hv] at hlook
      obtain ⟨hadjp, hokcur, j, hj, hji, hjk⟩ := hg.par i hi p hv
      rw [hkey] at hadjp hokcur
      obtain ⟨l', hl'eq, hl'head, hl'last, hl'chain, hl'mem⟩ :=
        ih j (by omega) m p j hj hjk (le_refl j) (by omega)
      rcases l' with _ | ⟨p0, t⟩
      · simp at hl'head
      · have hp0 : p = p0 := by
          have := hl'head
          simp at this
          exact this.symm
        subst hp0
        refine ⟨cur :: p :: t, ?_, rfl, ?_, ?_, ?_⟩
        · simp only [reconstruct]
          rw [hlook]
          simpa using hl'eq
        · rw [List.getLast?_cons_cons]
          exact hl'last
        · exact List.chain'_cons.mpr ⟨hadjp, hl'chain⟩
        · intro x hx hxs
          rcases List.mem_cons.mp hx with rfl | hx2
          · exact hokcur
          · exact hl'mem x hx2 hxs

theorem expand_fold (w : World) (sT current : ℤ × ℤ) :
    ∀ (ns : List (ℤ × ℤ)) (q0 : List (ℤ × ℤ))
      (c0 : List ((ℤ × ℤ) × Option (ℤ × ℤ))),
      (∀ n ∈ ns, AdjZ current n) → GoodCF w sT c0 →
      current ∈ c0.map Prod.fst →
      ∃ Γ : List ((ℤ × ℤ) × Option (ℤ × ℤ)),
        ns.foldl
          (fun (acc : List (ℤ × ℤ) × List ((ℤ × ℤ) × Option (ℤ × ℤ))) n =>
            if 0 ≤ n.1 ∧ n.1 < w.width ∧ 0 ≤ n.2 ∧ n.2 < w.height then
              if w.tiles n.1 n.2 ≠ .wall ∧ w.tiles n.1 n.2 ≠ .indestructible then
                if cfLookup acc.2 n = none then
                  (acc.1 ++ [n], acc.2 ++ [(n, some current)])
                else acc
              else acc
            else acc)
          (q0, c0) = (q0 ++ Γ.map Prod.fst, c0 ++ Γ) ∧
        GoodCF w sT (c0 ++ Γ) ∧
        (∀ g ∈ Γ, okTile w g.1) ∧
        (∀ n ∈ ns, okTile w n → n ∈ (c0 ++ Γ).map Prod.fst) := by
  intro ns
  induction ns with
  | nil =>
    intro q0 c0 hadj hg hcur
    exact ⟨[], by simp, by simpa using hg, by simp, by simp⟩
  | cons n ns' ih =>
    intro q0 c0 hadj hg hcur
    simp only [List.foldl_cons]
    by_cases hb : 0 ≤ n.1 ∧ n.1 < w.width ∧ 0 ≤ n.2 ∧ n.2 < w.height
    · rw [if_pos hb]
      by_cases ht : w.tiles n.1 n.2 ≠ .wall ∧ w.tiles n.1 n.2 ≠ .indestructible
      · rw [if_pos ht]
        by_cases hl : cfLookup c0 n = none
        · rw [if_pos hl]
          have hfresh : n ∉ c0.map Prod.fst := (cfLookup_eq_none c0 n).mp hl
          have hok : okTile w n := ⟨hb, ht⟩
          have hg' : GoodCF w sT (c0 ++ [(n, some current)]) :=
            goodCF_snoc w sT c0 hg n current hfresh
              (hadj n (List.mem_cons_self n ns')) hok hcur
          have hcur' : current ∈ (c0 ++ [(n, some current)]).map Prod.fst := by
            simp only [List.map_append]
            exact List.mem_append_left _ hcur
          obtain ⟨Γ', h1, h2, h3, h4⟩ :=
            ih (q0 ++ [n]) (c0 ++ [(n, some current)])
              (fun x hx => hadj x (List.mem_cons_of_mem n hx)) hg' hcur'
          refine ⟨(n, some current) :: Γ', ?_, ?_, ?_, ?_⟩
          · rw [h1]
            simp
          · simpa using h2
          · intro g hgm
            rcases List.mem_cons.mp hgm with rfl | hgm2
            · exact hok
            · exact h3 g hgm2
          · intro x hx hxok
            rcases List.mem_cons.mp hx with rfl | hx2
            · simp only [List.map_append, List.map_cons, List.map_nil]
              exact List.mem_append_right _ (List.mem_cons_self x _)
            · have := h4 x hx2 hxok
              simpa using this
        · rw [if_neg hl]
          obtain ⟨Γ', h1, h2, h3, h4⟩ :=
            ih q0 c0 (fun x hx => hadj x (List.mem_cons_of_mem n hx)) hg hcur
          refine ⟨Γ', h1, h2, h3, ?_⟩
          intro x hx hxok
          rcases List.mem_cons.mp hx with rfl | hx2
          · have hmem : x ∈ c0.map Prod.fst := by
              by_contra hc
              exact hl ((cfLookup_eq_none c0 x).mpr hc)
            simp only [List.map_append]
            exact List.mem_append_left _ hmem
          · exact h4 x hx2 hxok
      · rw [if_neg ht]
        obtain ⟨Γ', h1, h2, h3, h4⟩ :=
          ih q0 c0 (fun x hx => hadj x (List.mem_cons_of_mem n hx)) hg hcur
        refine ⟨Γ', h1, h2, h3, ?_⟩
        intro x hx hxok
        rcases List.mem_cons.mp hx with rfl | hx2
        · exact absurd hxok.2 ht
        · exact h4 x hx2 hxok
    · rw [if_neg hb]
      obtain ⟨Γ', h1, h2, h3, h4⟩ :=
        ih q0 c0 (fun x hx => hadj x (List.mem_cons_of_mem n hx)) hg hcur
      refine ⟨Γ', h1, h2, h3, ?_⟩
      intro x hx hxok
      rcases List.mem_cons.mp hx with rfl | hx2
      · exact absurd hxok.1 hb
      · exact h4 x hx2 hxok

theorem bfsLoop_some_spec (w : World) (sT eT : ℤ × ℤ) :
    ∀ (fuel : ℕ) (queue : List (ℤ × ℤ))
      (cf : List ((ℤ × ℤ) × Option (ℤ × ℤ))) (out : List (ℤ × ℤ)),
      GoodCF w sT cf → (∀ q ∈ queue, q ∈ cf.map Prod.fst) →
      bfsLoop w eT fuel queue cf = some out →
      PathReach w sT eT ∧ out.head? = some sT ∧
        out.getLast? = some eT ∧ out.Chain' AdjZ ∧
        ∀ t ∈ out, t ≠ sT → okTile w t := by
  intro fuel
  induction fuel with
  | zero =>
    intro queue cf out _ _ h
    simp [bfsLoop] at h
  | succ m ih =>
    intro queue cf out hg hq hrun
    rcases queue with _ | ⟨cur, rest⟩
    · simp [bfsLoop] at hrun
    · simp only [bfsLoop] at hrun
      by_cases hce : cur = eT
      · rw [if_pos hce] at hrun
        obtain rfl := Option.some.inj hrun
        have hck : cur ∈ cf.map Prod.fst := hq cur (by simp)
        obtain ⟨e, he, he1⟩ := List.mem_map.mp hck
        obtain ⟨⟨i, hi⟩, hgi⟩ := List.mem_iff_get.mp he
        have hkey : (cf.get ⟨i, hi⟩).1 = cur := by rw [hgi, he1]
        obtain ⟨l, hleq, hlh, hll, hlc, hlm⟩ :=
          reconstruct_spec w sT cf hg i (cf.length + 1) cur i hi hkey
            (le_refl i) (by omega)
        rw [hleq]
        refine ⟨hce ▸ hg.reach cur hck, ?_, ?_, ?_, ?_⟩
        · rw [List.head?_reverse]
          exact hll
        · rw [List.getLast?_reverse]
          rw [hlh, hce]
        · exact List.chain'_reverse.mpr hlc
        · intro t ht hts
          exact hlm t (List.mem_reverse.mp ht) hts
      · rw [if_neg hce] at hrun
        obtain ⟨Γ, hfold, hg', hΓok, hclose⟩ :=
          expand_fold w sT cur (pathNeighbors cur) rest cf
            (fun n hn => (adj_iff_pathNeighbors cur n).mp hn) hg
            (hq cur (by simp))
        rw [hfold] at hrun
        refine ih _ _ out hg' ?_ hrun
        intro q hqm
        rcases List.mem_append.mp hqm with h | h
        · have := hq q (List.mem_cons_of_mem cur h)
          simp only [List.map_append]
          exact List.mem_append_left _ this
        · simp only [List.map_append]
          exact List.mem_append_right _ h

theorem toNat_mul_toNat_le (a b : ℤ) : a.toNat * b.toNat ≤ (a * b).toNat := by
  rcases le_or_lt 0 a with ha | ha
  · rcases le_or_lt 0 b with hb | hb
    · apply le_of_eq
      have hcast : ((a.toNat * b.toNat : ℕ) : ℤ) = a * b := by
        push_cast
        rw [Int.toNat_of_nonneg ha, Int.toNat_of_nonneg hb]
      calc a.toNat * b.toNat = ((a.toNat * b.toNat : ℕ) : ℤ).toNat := by
            rw [Int.toNat_natCast]
        _ = (a * b).toNat := by rw [hcast]
    · have hb0 : b.toNat = 0 := Int.toNat_of_nonpos hb.le
      simp [hb0]
  · have ha0 : a.toNat = 0 := Int.toNat_of_nonpos ha.le
    simp [ha0]

theorem keys_bound (w : World) (sT : ℤ × ℤ)
    (cf : List ((ℤ × ℤ) × Option (ℤ × ℤ)))
    (hn : (cf.map Prod.fst).Nodup)
    (hb : ∀ k ∈ cf.map Prod.fst, k = sT ∨
      (0 ≤ k.1 ∧ k.1 < w.width ∧ 0 ≤ k.2 ∧ k.2 < w.height)) :
    cf.length ≤ (w.width * w.height).toNat + 1 := by
  have hlen : cf.length = (cf.map Prod.fst).length := (List.length_map _ _).symm
  rw [hlen, ← List.toFinset_card_of_nodup hn]
  have hsub : (cf.map Prod.fst).toFinset ⊆
      insert sT ((Finset.Ico (0:ℤ) w.width) ×ˢ (Finset.Ico (0:ℤ) w.height)) := by
    intro k hk
    rcases hb k (List.mem_toFinset.mp hk) with rfl | hbk
    · exact Finset.mem_insert_self _ _
    · refine Finset.mem_insert_of_mem ?_
      rw [Finset.mem_product, Finset.mem_Ico, Finset.mem_Ico]
      exact ⟨⟨hbk.1, hbk.2.1⟩, ⟨hbk.2.2.1, hbk.2.2.2⟩⟩
  calc (cf.map Prod.fst).toFinset.card
      ≤ (insert sT ((Finset.Ico (0:ℤ) w.width) ×ˢ
          (Finset.Ico (0:ℤ) w.height))).card := Finset.card_le_card hsub
    _ ≤ ((Finset.Ico (0:ℤ) w.width) ×ˢ (Finset.Ico (0:ℤ) w.height)).card + 1 :=
        Finset.card_insert_le _ _
    _ = (Finset.Ico (0:ℤ) w.width).card * (Finset.Ico (0:ℤ) w.height).card
        + 1 := by rw [Finset.card_product]
    _ = w.width.toNat * w.height.toNat + 1 := by
        rw [Int.card_Ico]
        rw [Int.card_Ico]
        simp
    _ ≤ (w.width * w.height).toNat + 1 := by
        have := toNat_mul_toNat_le w.width w.height
        omega

theorem bfsLoop_none_spec (w : World) (sT eT : ℤ × ℤ) :
    ∀ (fuel : ℕ) (queue : List (ℤ × ℤ))
      (cf : List ((ℤ × ℤ) × Option (ℤ × ℤ))),
      GoodCF w sT cf →
      (∀ q ∈ queue, q ∈ cf.map Prod.fst) →
      (∀ k ∈ cf.map Prod.fst, k ∉ queue →
        k ≠ eT ∧ ∀ n, AdjZ k n → okTile w n → n ∈ cf.map Prod.fst) →
      (∀ k ∈ cf.map Prod.fst, k = sT ∨
        (0 ≤ k.1 ∧ k.1 < w.width ∧ 0 ≤ k.2 ∧ k.2 < w.height)) →
      queue.length + ((w.width * w.height).toNat + 1 - cf.length) < fuel →
      bfsLoop w eT fuel queue cf = none →
      ¬ PathReach w sT eT := by
  intro fuel
  induction fuel with
  | zero =>
    intro queue cf _ _ _ _ hpot _
    omega
  | succ m ih =>
    intro queue cf hg hq hproc hbnd hpot hrun
    rcases queue with _ | ⟨cur, rest⟩
    · intro hreach
      have hcl : ∀ t, PathReach w sT t → t ∈ cf.map Prod.fst := by
        intro t ht
        induction ht with
        | refl => exact List.mem_map.mpr ⟨(sT, none), hg.start, rfl⟩
        | step hpq hadj hok ihq =>
          exact (hproc _ ihq (List.not_mem_nil _)).2 _ hadj hok
      exact (hproc eT (hcl eT hreach) (List.not_mem_nil eT)).1 rfl
    · simp only [bfsLoop] at hrun
      by_cases hce : cur = eT
      · rw [if_pos hce] at hrun
        cases hrun
      · rw [if_neg hce] at hrun
        obtain ⟨Γ, hfold, hg', hΓok, hclose⟩ :=
          expand_fold w sT cur (pathNeighbors cur) rest cf
            (fun n hn => (adj_iff_pathNeighbors cur n).mp hn) hg
            (hq cur (by simp))
        rw [hfold] at hrun
        have hbnd' : ∀ k ∈ (cf ++ Γ).map Prod.fst, k = sT ∨
            (0 ≤ k.1 ∧ k.1 < w.width ∧ 0 ≤ k.2 ∧ k.2 < w.height) := by
          intro k hk
          simp only [List.map_append] at hk
          rcases List.mem_append.mp hk with h | h
          · exact hbnd k h
          · obtain ⟨g, hgm, hg1⟩ := List.mem_map.mp h
            right
            rw [← hg1]
            exact (hΓok g hgm).1
        refine ih _ _ hg' ?_ ?_ hbnd' ?_ hrun
        · intro q hqm
          rcases List.mem_append.mp hqm with h | h
          · have := hq q (List.mem_cons_of_mem cur h)
            simp only [List.map_append]
            exact List.mem_append_left _ this
          · simp only [List.map_append]
            exact List.mem_append_right _ h
        · intro k hk hknq
          simp only [List.map_append] at hk
          rcases List.mem_append.mp hk with hkc | hkΓ
          · by_cases hkcur : k = cur
            · subst hkcur
              refine ⟨hce, ?_⟩
              intro n hadj hok
              have := hclose n ((adj_iff_pathNeighbors k n).mpr hadj) hok
              simpa [List.map_append] using this
            · have hknot : k ∉ cur :: rest := by
                intro hmem
                rcases List.mem_cons.mp hmem with h | h
                · exact hkcur h
                · exact hknq (List.mem_append_left _ h)
              obtain ⟨hne, hcls⟩ := hproc k hkc hknot
              refine ⟨hne, ?_⟩
              intro n hadj hok
              simp only [List.map_append]
              exact List.mem_append_left _ (hcls n hadj hok)
          · exact absurd (List.mem_append_right rest hkΓ) hknq
        · have hlen' : (cf ++ Γ).length ≤ (w.width * w.height).toNat + 1 :=
            keys_bound w sT (cf ++ Γ) hg'.nodup hbnd'
          dsimp only
          simp only [List.length_append, List.length_map] at hlen' ⊢
          simp only [List.length_cons] at hpot
          omega

theorem initial_goodCF (w : World) (sT : ℤ × ℤ) :
    GoodCF w sT [(sT, none)] := by
  constructor
  · simp
  · simp
  · intro k hk
    simp at hk
    exact hk
  · intro i hi p hp
    have hi0 : i = 0 := by
      simp at hi
      omega
    subst hi0
    simp at hp
  · intro k hk
    simp at hk
    subst hk
    exact PathReach.refl

/-- C7 counterexample: on an all-floor world, the path returned for a
query from tile (1,1) to tile (2,1) is the two tile centres
[(60,60), (100,60)] — it BEGINS at the start tile's own centre (60,60),
not at the next step; and a query whose start and end share a tile
returns `some []`, which ends at no goal point at all. -/
theorem c7_counterexample :
    worldTiny.findPath (60, 60) (100, 60) = some [(60, 60), (100, 60)] ∧
    worldTiny.findPath (60, 60) (60, 60) = some [] := by
  constructor
  · unfold World.findPath
    dsimp only
    rw [show (⌊(60:ℝ) / TILE_SIZE⌋ : ℤ) = 1 by norm_num [TILE_SIZE],
        show (⌊(100:ℝ) / TILE_SIZE⌋ : ℤ) = 2 by norm_num [TILE_SIZE]]
    rw [if_neg (by decide)]
    rw [show bfsLoop worldTiny (2, 1)
          ((worldTiny.width * worldTiny.height).toNat + 2)
          [(1, 1)] [((1, 1), none)] = some [(1, 1), (2, 1)] from by decide]
    norm_num [centerOf, TILE_SIZE]
  · unfold World.findPath
    dsimp only
    rw [if_pos rfl]

/-- C7 (amended): `findPath` runs an unweighted BFS over orthogonal
tile moves treating Wall/IndestructibleWall as blocked; when it
returns a path (for distinct start/end tiles) the path is the tile
centres of an orthogonally adjacent tile chain BEGINNING AT THE START
TILE and ending at the goal tile, with every tile after the first
passable; and it returns `none` exactly when the goal tile is
unreachable from the start tile. -/
theorem c7_amended (w : World) (s e : ℝ × ℝ) (hne : tileOf s ≠ tileOf e) :
    (∀ path, w.findPath s e = some path →
      PathReach w (tileOf s) (tileOf e) ∧
      ∃ ts : List (ℤ × ℤ), path = ts.map centerOf ∧
        ts.head? = some (tileOf s) ∧ ts.getLast? = some (tileOf e) ∧
        ts.Chain' AdjZ ∧ (∀ t ∈ ts, t ≠ tileOf s → okTile w t)) ∧
    (w.findPath s e = none ↔ ¬ PathReach w (tileOf s) (tileOf e)) := by
  have hgood : GoodCF w (tileOf s) [(tileOf s, none)] := initial_goodCF w _
  have hqsub : ∀ q ∈ [tileOf s],
      q ∈ ([(tileOf s, (none : Option (ℤ × ℤ)))]).map Prod.fst := by
    simp
  unfold World.findPath
  dsimp only
  rw [show ((⌊s.1 / TILE_SIZE⌋, ⌊s.2 / TILE_SIZE⌋) : ℤ × ℤ) = tileOf s from rfl,
      show ((⌊e.1 / TILE_SIZE⌋, ⌊e.2 / TILE_SIZE⌋) : ℤ × ℤ) = tileOf e from rfl]
  rw [if_neg hne]
  constructor
  · intro path hp
    cases hrun : bfsLoop w (tileOf e) ((w.width * w.height).toNat + 2)
        [tileOf s] [(tileOf s, none)] with
    | none =>
      rw [hrun] at hp
      cases hp
    | some tiles =>
      rw [hrun] at hp
      dsimp only at hp
      obtain rfl := (Option.some.inj hp).symm
      obtain ⟨hreach, hh, hl, hc, hm⟩ :=
        bfsLoop_some_spec w (tileOf s) (tileOf e) _ _ _ tiles hgood hqsub hrun
      exact ⟨hreach, tiles, rfl, hh, hl, hc, hm⟩
  · constructor
    · intro hnone
      cases hrun : bfsLoop w (tileOf e) ((w.width * w.height).toNat + 2)
          [tileOf s] [(tileOf s, none)] with
      | some tiles =>
        rw [hrun] at hnone
        cases hnone
      | none =>
        refine bfsLoop_none_spec w (tileOf s) (tileOf e) _ _ _ hgood hqsub
          ?_ ?_ ?_ hrun
        · intro k hk hknq
          simp only [List.map_cons, List.map_nil] at hk
          rcases List.mem_singleton.mp hk with rfl
          exact absurd (List.mem_singleton.mpr rfl) hknq
        · intro k hk
          simp only [List.map_cons, List.map_nil] at hk
          rcases List.mem_singleton.mp hk with rfl
          exact Or.inl rfl
        · simp
          omega
    · intro hnr
      cases hrun : bfsLoop w (tileOf e) ((w.width * w.height).toNat + 2)
          [tileOf s] [(tileOf s, none)] with
      | none =>
        rfl
      | some tiles =>
        exfalso
        exact hnr (bfsLoop_some_spec w (tileOf s) (tileOf e) _ _ _ tiles
          hgood hqsub hrun).1

theorem c7_witness :
    tileOf ((60 : ℝ), (60 : ℝ)) ≠ tileOf (100, 60) ∧
    (worldTiny.findPath (60, 60) (100, 60) = none ↔
      ¬ PathReach worldTiny (tileOf (60, 60)) (tileOf (100, 60))) := by
  have hne : tileOf ((60 : ℝ), (60 : ℝ)) ≠ tileOf (100, 60) := by
    have h1 : (⌊(60:ℝ) / TILE_SIZE⌋ : ℤ) = 1 := by norm_num [TILE_SIZE]
    have h2 : (⌊(100:ℝ) / TILE_SIZE⌋ : ℤ) = 2 := by norm_num [TILE_SIZE]
    unfold tileOf
    dsimp only
    rw [h1, h2]
    decide
  exact ⟨hne, (c7_amended worldTiny (60, 60) (100, 60) hne).2⟩
